import Mathlib

/-!
Verification of the oracle-agent repository: a retrieval-augmented
question-answering agent exposed over the A2A protocol.

This file shallowly embeds the repository's core logic and settles the
frozen claims about it:
* the unified SQLite store for sessions and A2A tasks (`Store` in
  src/store.ts): task creation, status updates, artifact accumulation,
  session upserts;
* the bespoke A2A JSON-RPC server (`createServer`): the `tasks/get`,
  `tasks/cancel`, `message/send` and `message/stream` handlers,
  `resolveTask`, `resolveEndState` and the clarification-callback wiring;
* the markdown chunker and the vector store (src/rag.ts): `chunkMarkdown`,
  `splitBySubheadings`, `cosineSimilarity`, `VectorStore.search` and
  `VectorStore.init`.

Modelling conventions:
* JavaScript strings are modelled as Lean `String` where only whole-string
  equality matters, and as `List Char` in the chunker where
  character-level reasoning is needed.  `Date.now()` timestamps are `Nat`
  parameters threaded into each operation.
* SQLite tables are in-memory lists of rows; `UPDATE ... WHERE id = ?`
  maps over all rows whose id matches (the PRIMARY KEY keeps it unique),
  and an `INSERT` with a duplicate primary key aborts the request.
* JS numbers are idealized as `ℚ` and `Math.sqrt` as `Rat.sqrt`; none of
  the proved ordering properties depend on the numeric values.
* External collaborators (the OpenAI embedding and generation calls, file
  reads) are parameters of the functions that use them: the spec treats
  them as black boxes.
-/

namespace OracleAgent

/-! ## Data model (src/store.ts) -/

/-- A2A task states, `TaskState` in src/store.ts. -/
inductive TaskState
  | submitted
  | working
  | inputRequired
  | completed
  | failed
  | canceled
deriving DecidableEq, Repr

/-- One entry of `TaskArtifact.parts`. -/
structure ArtifactPart where
  type : String
  text : Option String
deriving DecidableEq, Repr

/-- Mirrors `TaskArtifact` in src/store.ts. -/
structure TaskArtifact where
  name : String
  parts : List ArtifactPart
  append : Option Bool := none
deriving DecidableEq, Repr

/-- Mirrors `Task` in src/store.ts (`status` is flattened into the
`state`/`message` columns exactly as the tasks table stores it). -/
structure Task where
  id : String
  contextId : String
  state : TaskState
  message : Option String
  artifacts : List TaskArtifact
  createdAt : Nat
  updatedAt : Nat
deriving DecidableEq, Repr

/-- One row of the sessions table. -/
structure Session where
  contextId : String
  responseId : String
  updatedAt : Nat
deriving DecidableEq, Repr

/-- The database state of `Store`: the tasks table and the sessions table,
in row insertion order. -/
structure StoreState where
  tasks : List Task
  sessions : List Session
deriving DecidableEq, Repr

namespace StoreState

/-- Mirrors `Store.getSession`: `SELECT response_id FROM sessions WHERE
context_id = ?`. -/
def getSession (s : StoreState) (contextId : String) : Option String :=
  (s.sessions.find? (fun r => decide (r.contextId = contextId))).map (·.responseId)

/-- Mirrors `Store.setSession`: `INSERT ... ON CONFLICT(context_id) DO
UPDATE` upsert. -/
def setSession (s : StoreState) (contextId responseId : String) (now : Nat) : StoreState :=
  if s.sessions.any (fun r => decide (r.contextId = contextId)) then
    { s with sessions := s.sessions.map (fun r =>
        if r.contextId = contextId then
          { r with responseId := responseId, updatedAt := now }
        else r) }
  else
    { s with sessions := s.sessions ++ [⟨contextId, responseId, now⟩] }

/-- Mirrors `Store.createTask`: inserts a fresh row in state `submitted`
with empty artifacts. -/
def createTask (s : StoreState) (id contextId : String) (now : Nat) : StoreState :=
  { s with tasks := s.tasks ++
      [{ id := id, contextId := contextId, state := .submitted, message := none,
         artifacts := [], createdAt := now, updatedAt := now }] }

/-- Mirrors `Store.getTask`: `SELECT * FROM tasks WHERE id = ?`. -/
def getTask (s : StoreState) (taskId : String) : Option Task :=
  s.tasks.find? (fun t => decide (t.id = taskId))

/-- True iff a row with this primary key already exists. -/
def taskExists (s : StoreState) (taskId : String) : Bool :=
  (s.getTask taskId).isSome

/-- Fold step selecting the row with the maximal `updated_at` (ties keep
the earlier row). -/
def pickLatest (best : Option Task) (t : Task) : Option Task :=
  match best with
  | none => some t
  | some b => if b.updatedAt < t.updatedAt then some t else some b

/-- Mirrors `Store.getActiveTask`: `SELECT * FROM tasks WHERE context_id =
? AND state = 'input-required' ORDER BY updated_at DESC LIMIT 1` — the
most recently updated `input-required` task of the context (SQLite leaves
the order of ties unspecified; the model keeps the earliest such row). -/
def getActiveTask (s : StoreState) (contextId : String) : Option Task :=
  (s.tasks.filter
      (fun t => decide (t.contextId = contextId ∧ t.state = TaskState.inputRequired))).foldl
    pickLatest none

/-- Mirrors `Store.updateTaskStatus`: `UPDATE tasks SET state = ?, message
= ?, updated_at = ? WHERE id = ?` (a missing message argument stores
NULL). -/
def updateTaskStatus (s : StoreState) (taskId : String) (state : TaskState)
    (message : Option String) (now : Nat) : StoreState :=
  { s with tasks := s.tasks.map (fun t =>
      if t.id = taskId then { t with state := state, message := message, updatedAt := now }
      else t) }

/-- Mirrors `Store.setTaskArtifacts`: `UPDATE tasks SET artifacts = ?,
updated_at = ? WHERE id = ?`. -/
def setTaskArtifacts (s : StoreState) (taskId : String)
    (artifacts : List TaskArtifact) (now : Nat) : StoreState :=
  { s with tasks := s.tasks.map (fun t =>
      if t.id = taskId then { t with artifacts := artifacts, updatedAt := now }
      else t) }

/-- In-place update of the first part whose `type` is `"text"`:
`textPart.text = (textPart.text ?? "") + text` in
`Store.appendToTaskArtifact`. -/
def bumpFirstTextPart : List ArtifactPart → String → List ArtifactPart
  | [], _ => []
  | p :: ps, s =>
    if p.type = "text" then { p with text := some (p.text.getD "" ++ s) } :: ps
    else p :: bumpFirstTextPart ps s

/-- The artifact-list transformation performed by
`Store.appendToTaskArtifact`: with no artifacts, push a fresh `"response"`
artifact holding the text; otherwise take `artifacts[0]` (the source names
it `last` but reads index 0), and either extend its first `"text"` part or
push a new text part at the end of its parts. -/
def appendParts (artifacts : List TaskArtifact) (text : String) : List TaskArtifact :=
  match artifacts with
  | [] => [{ name := "response", parts := [{ type := "text", text := some text }] }]
  | first :: rest =>
    if (first.parts.find? (fun p => decide (p.type = "text"))).isSome then
      { first with parts := bumpFirstTextPart first.parts text } :: rest
    else
      { first with parts := first.parts ++ [{ type := "text", text := some text }] } :: rest

/-- Mirrors `Store.appendToTaskArtifact`: looks the task up, returns
unchanged when it does not exist, otherwise writes the transformed
artifact list back through the `taskSetArtifacts` statement. -/
def appendToTaskArtifact (s : StoreState) (taskId : String) (text : String)
    (now : Nat) : StoreState :=
  match s.getTask taskId with
  | none => s
  | some task => s.setTaskArtifacts taskId (appendParts task.artifacts text) now

end StoreState

/-- Observer: the text of the first `"text"` part of a task's first
artifact (empty when absent) — the text that
`Store.appendToTaskArtifact` extends. -/
def Task.firstText (t : Task) : String :=
  match t.artifacts with
  | [] => ""
  | a :: _ =>
    match a.parts.find? (fun p => decide (p.type = "text")) with
    | some p => p.text.getD ""
    | none => ""

/-! ## Supporting lemmas about the store operations -/

theorem find?_map_id_preserving {l : List Task} {f : Task → Task}
    (hf : ∀ t, (f t).id = t.id) (taskId : String) :
    (l.map f).find? (fun t => decide (t.id = taskId)) =
      (l.find? (fun t => decide (t.id = taskId))).map f := by
  rw [List.find?_map]
  have hfun : ((fun t : Task => decide (t.id = taskId)) ∘ f) =
      (fun t : Task => decide (t.id = taskId)) := by
    funext t
    simp [Function.comp, hf]
  rw [hfun]

theorem getTask_updateTaskStatus (s : StoreState) (tid : String) (st : TaskState)
    (m : Option String) (now : Nat) (taskId : String) :
    (s.updateTaskStatus tid st m now).getTask taskId =
      (s.getTask taskId).map (fun t =>
        if t.id = tid then { t with state := st, message := m, updatedAt := now } else t) := by
  unfold StoreState.getTask StoreState.updateTaskStatus
  exact find?_map_id_preserving (fun t => by by_cases h : t.id = tid <;> simp [h]) taskId

theorem getTask_setTaskArtifacts (s : StoreState) (tid : String)
    (arts : List TaskArtifact) (now : Nat) (taskId : String) :
    (s.setTaskArtifacts tid arts now).getTask taskId =
      (s.getTask taskId).map (fun t =>
        if t.id = tid then { t with artifacts := arts, updatedAt := now } else t) := by
  unfold StoreState.getTask StoreState.setTaskArtifacts
  exact find?_map_id_preserving (fun t => by by_cases h : t.id = tid <;> simp [h]) taskId

/-- The text extracted by `Task.firstText`, as a function of the raw
artifact list. -/
def artsText (artifacts : List TaskArtifact) : String :=
  match artifacts with
  | [] => ""
  | a :: _ =>
    match a.parts.find? (fun p => decide (p.type = "text")) with
    | some p => p.text.getD ""
    | none => ""

theorem firstText_eq_artsText (t : Task) : t.firstText = artsText t.artifacts := rfl

theorem string_empty_append (s : String) : "" ++ s = s := by
  cases s with
  | mk l => show String.mk ([] ++ l) = String.mk l; rw [List.nil_append]

theorem bumpFirstTextPart_find? (parts : List ArtifactPart) (s : String)
    (p : ArtifactPart) (hp : parts.find? (fun p => decide (p.type = "text")) = some p) :
    (StoreState.bumpFirstTextPart parts s).find? (fun p => decide (p.type = "text")) =
      some { p with text := some (p.text.getD "" ++ s) } := by
  induction parts with
  | nil => simp at hp
  | cons q qs ih =>
    by_cases h : q.type = "text"
    · rw [List.find?_cons_of_pos _ (by simp [h])] at hp
      cases hp
      simp [StoreState.bumpFirstTextPart, h, List.find?_cons_of_pos]
    · rw [List.find?_cons_of_neg _ (by simp [h])] at hp
      simp only [StoreState.bumpFirstTextPart, if_neg h]
      rw [List.find?_cons_of_neg _ (by simp [h])]
      exact ih hp

theorem artsText_appendParts (artifacts : List TaskArtifact) (s : String) :
    artsText (StoreState.appendParts artifacts s) = artsText artifacts ++ s := by
  match artifacts with
  | [] =>
    show artsText [{ name := "response", parts := [{ type := "text", text := some s }] }] =
      "" ++ s
    rw [string_empty_append]
    rfl
  | first :: rest =>
    rcases hfind : first.parts.find? (fun p => decide (p.type = "text")) with _ | p
    · simp only [StoreState.appendParts, hfind, Option.isSome_none, Bool.false_eq_true,
        if_false, artsText]
      rw [List.find?_append, hfind, Option.none_or,
        List.find?_cons_of_pos _ (by simp)]
      simp [string_empty_append]
    · simp only [StoreState.appendParts, hfind, Option.isSome_some, if_true, artsText]
      rw [bumpFirstTextPart_find? first.parts s p hfind]
      rfl

/-! ## Claim C9 -/

/-- C9: for every stored task t and every state/message pair,
`updateTaskStatus(t.id, state, message)` changes only t's status state,
status message and `updatedAt`; t's id, contextId, artifacts and
createdAt are unchanged, every other task is entirely unchanged, and all
session rows are unchanged. -/
theorem c9_updateTaskStatus_frame (s : StoreState) (taskId : String) (st : TaskState)
    (msg : Option String) (now : Nat) :
    (s.updateTaskStatus taskId st msg now).sessions = s.sessions ∧
    List.Forall₂ (fun t t' : Task =>
        t'.id = t.id ∧ t'.contextId = t.contextId ∧ t'.artifacts = t.artifacts ∧
        t'.createdAt = t.createdAt ∧
        (t.id ≠ taskId → t' = t) ∧
        (t.id = taskId → t'.state = st ∧ t'.message = msg ∧ t'.updatedAt = now))
      s.tasks (s.updateTaskStatus taskId st msg now).tasks := by
  refine ⟨rfl, ?_⟩
  show List.Forall₂ _ s.tasks (s.tasks.map _)
  induction s.tasks with
  | nil => exact List.Forall₂.nil
  | cons t ts ih =>
    refine List.Forall₂.cons ?_ ih
    by_cases h : t.id = taskId <;> simp [h]

/-- Witness for C9 at a concrete store. -/
theorem c9_updateTaskStatus_frame_witness :
    (StoreState.updateTaskStatus ⟨[⟨"t1", "c1", .working, some "Thinking...", [], 3, 4⟩],
        [⟨"c1", "r1", 2⟩]⟩ "t1" .completed none 9).sessions = [⟨"c1", "r1", 2⟩] ∧
    List.Forall₂ (fun t t' : Task =>
        t'.id = t.id ∧ t'.contextId = t.contextId ∧ t'.artifacts = t.artifacts ∧
        t'.createdAt = t.createdAt ∧
        (t.id ≠ "t1" → t' = t) ∧
        (t.id = "t1" → t'.state = .completed ∧ t'.message = none ∧ t'.updatedAt = 9))
      [⟨"t1", "c1", .working, some "Thinking...", [], 3, 4⟩]
      (StoreState.updateTaskStatus ⟨[⟨"t1", "c1", .working, some "Thinking...", [], 3, 4⟩],
        [⟨"c1", "r1", 2⟩]⟩ "t1" .completed none 9).tasks :=
  c9_updateTaskStatus_frame ⟨[⟨"t1", "c1", .working, some "Thinking...", [], 3, 4⟩],
    [⟨"c1", "r1", 2⟩]⟩ "t1" .completed none 9

theorem appendToTaskArtifact_of_getTask (s : StoreState) {taskId : String} {t : Task}
    (ht : s.getTask taskId = some t) (text : String) (now : Nat) :
    s.appendToTaskArtifact taskId text now =
      s.setTaskArtifacts taskId (StoreState.appendParts t.artifacts text) now := by
  unfold StoreState.appendToTaskArtifact
  rw [ht]

theorem appendToTaskArtifact_of_getTask_none (s : StoreState) {taskId : String}
    (h : s.getTask taskId = none) (text : String) (now : Nat) :
    s.appendToTaskArtifact taskId text now = s := by
  unfold StoreState.appendToTaskArtifact
  rw [h]

/-! ## Claim C10 -/

/-- C10: `appendToTaskArtifact(taskId, s)` leaves the task's first
artifact with a text part whose text is the previous text with s
appended; with no artifacts it creates a single `"response"` artifact
whose text is exactly s; consecutive appends of s1 then s2 yield the
previous text followed by s1 ++ s2; and appending to a non-existent
taskId changes nothing. -/
theorem c10_appendToTaskArtifact_spec (s : StoreState) (taskId s1 : String) (now : Nat) :
    ((∀ t ∈ s.tasks, t.id ≠ taskId) → s.appendToTaskArtifact taskId s1 now = s) ∧
    (∀ t, s.getTask taskId = some t →
      (t.artifacts = [] →
        (s.appendToTaskArtifact taskId s1 now).getTask taskId =
          some { t with artifacts := [⟨"response", [⟨"text", some s1⟩], none⟩],
                        updatedAt := now }) ∧
      ((s.appendToTaskArtifact taskId s1 now).getTask taskId).map Task.firstText =
        some (t.firstText ++ s1) ∧
      (∀ s2 now2,
        (((s.appendToTaskArtifact taskId s1 now).appendToTaskArtifact taskId s2 now2).getTask
            taskId).map Task.firstText = some (t.firstText ++ s1 ++ s2))) := by
  constructor
  · intro hnone
    have hno : s.getTask taskId = none := by
      apply List.find?_eq_none.mpr
      intro t ht
      simp [hnone t ht]
    exact appendToTaskArtifact_of_getTask_none s hno s1 now
  · intro t ht
    have htid : t.id = taskId := by
      have := List.find?_some ht
      simpa using this
    have hget1 : (s.appendToTaskArtifact taskId s1 now).getTask taskId =
        some { t with artifacts := StoreState.appendParts t.artifacts s1,
                      updatedAt := now } := by
      rw [appendToTaskArtifact_of_getTask s ht s1 now, getTask_setTaskArtifacts, ht]
      simp [htid]
    refine ⟨?_, ?_, ?_⟩
    · intro hempty
      rw [hget1, hempty]
      rfl
    · rw [hget1]
      simp only [Option.map_some']
      rw [firstText_eq_artsText, firstText_eq_artsText]
      exact congrArg some (artsText_appendParts t.artifacts s1)
    · intro s2 now2
      rw [appendToTaskArtifact_of_getTask _ hget1 s2 now2, getTask_setTaskArtifacts, hget1]
      simp only [Option.map_some']
      rw [if_pos htid]
      rw [firstText_eq_artsText]
      show some (artsText (StoreState.appendParts (StoreState.appendParts t.artifacts s1) s2)) = _
      rw [artsText_appendParts, artsText_appendParts, firstText_eq_artsText]

/-- Witness for C10: a store with one task carrying an existing response
artifact, plus a missing-task case. -/
theorem c10_appendToTaskArtifact_spec_witness :
    (StoreState.appendToTaskArtifact
        ⟨[⟨"t9", "c1", .working, none, [], 0, 0⟩], []⟩ "zz" "x" 5 =
      ⟨[⟨"t9", "c1", .working, none, [], 0, 0⟩], []⟩) ∧
    ((StoreState.appendToTaskArtifact
        ⟨[⟨"t9", "c1", .working, none, [], 0, 0⟩], []⟩ "t9" "ab" 5).getTask "t9" =
      some ⟨"t9", "c1", .working, none, [⟨"response", [⟨"text", some "ab"⟩], none⟩], 0, 5⟩) ∧
    (((StoreState.appendToTaskArtifact (StoreState.appendToTaskArtifact
          ⟨[⟨"t9", "c1", .working, none, [], 0, 0⟩], []⟩ "t9" "ab" 5) "t9" "cd" 6).getTask
        "t9").map Task.firstText = some "abcd") := by
  have h1 := (c10_appendToTaskArtifact_spec
      ⟨[⟨"t9", "c1", .working, none, [], 0, 0⟩], []⟩ "zz" "x" 5).1 (by decide)
  have h2 := ((c10_appendToTaskArtifact_spec
      ⟨[⟨"t9", "c1", .working, none, [], 0, 0⟩], []⟩ "t9" "ab" 5).2
      ⟨"t9", "c1", .working, none, [], 0, 0⟩ (by decide)).1 rfl
  have h3 := (((c10_appendToTaskArtifact_spec
      ⟨[⟨"t9", "c1", .working, none, [], 0, 0⟩], []⟩ "t9" "ab" 5).2
      ⟨"t9", "c1", .working, none, [], 0, 0⟩ (by decide)).2.2) "cd" 6
  exact ⟨h1, by rw [h2], by rw [h3]; rfl⟩

/-! ## A2A server model (the bespoke JSON-RPC server, `createServer`) -/

/-- One part of an inbound A2A message. -/
structure MsgPart where
  type : String
  text : Option String
deriving DecidableEq, Repr

/-- Mirrors `A2AMessage`. -/
structure A2AMessage where
  role : String
  parts : List MsgPart
deriving DecidableEq, Repr

/-- Mirrors `extractText`: keeps the parts whose `type` is `"text"` and
whose `text` is truthy (present and non-empty — JS `p.text` is falsy for
the empty string), and joins them with newlines. -/
def extractText (m : A2AMessage) : String :=
  String.intercalate "\n"
    (m.parts.filterMap (fun p =>
      if p.type = "text" then
        match p.text with
        | some t => if t = "" then none else some t
        | none => none
      else none))

/-- The wire form `taskToA2A` produces: kind "task" with id, contextId,
status and artifacts (createdAt/updatedAt are not exposed). -/
structure A2ATask where
  id : String
  contextId : String
  state : TaskState
  message : Option String
  artifacts : List TaskArtifact
deriving DecidableEq, Repr

/-- Mirrors `taskToA2A`. -/
def taskToA2A (t : Task) : A2ATask :=
  { id := t.id, contextId := t.contextId, state := t.state, message := t.message,
    artifacts := t.artifacts }

/-- A JSON-RPC response: a result task, or an error with its HTTP status,
JSON-RPC code and message. -/
inductive RpcOutcome
  | ok (task : A2ATask)
  | error (httpStatus : Nat) (code : Int) (message : String)
deriving DecidableEq, Repr

/-- Observer: whether a response is an error. -/
def RpcOutcome.isError : RpcOutcome → Bool
  | .ok _ => false
  | .error _ _ _ => true

/-- The wire name of a task state, as interpolated into error messages
and status events. -/
def TaskState.toWire : TaskState → String
  | .submitted => "submitted"
  | .working => "working"
  | .inputRequired => "input-required"
  | .completed => "completed"
  | .failed => "failed"
  | .canceled => "canceled"

/-- The mutable state captured by the `createServer` closure: the SQLite
store, the per-task clarification flags (`inputRequiredFlags` keys set to
true), the shared `activeRunTaskId` variable, and the task ids holding a
live AbortController. -/
structure ServerState where
  store : StoreState
  inputRequiredFlags : List String
  activeRunTaskId : Option String
  abortControllers : List String
deriving DecidableEq, Repr

/-- The server right after `createServer` with an empty database. -/
def ServerState.empty : ServerState := ⟨⟨[], []⟩, [], none, []⟩

/-- `Map.set(taskId, true)` on a map modelled as its set of true keys. -/
def setFlag (flags : List String) (taskId : String) : List String :=
  if taskId ∈ flags then flags else flags ++ [taskId]

/-- `Map.delete(taskId)`. -/
def deleteFlag (flags : List String) (taskId : String) : List String :=
  flags.filter (fun t => decide (t ≠ taskId))

/-- Mirrors `resolveEndState`: read and delete the task's clarification
flag; `input-required` when it was set, else `completed`. -/
def resolveEndState (flags : List String) (taskId : String) : TaskState × List String :=
  (if taskId ∈ flags then .inputRequired else .completed, deleteFlag flags taskId)

/-- Mirrors `resolveTask`: reuse the context's `input-required` task when
one exists, otherwise insert a fresh task in `submitted`.  The `none`
result models the request-aborting SQLite primary-key violation raised
when the fresh uuid collides with an existing row. -/
def resolveTask (s : StoreState) (contextId freshTaskId : String) (now : Nat) :
    Option (StoreState × String × Bool) :=
  match s.getActiveTask contextId with
  | some active => some (s, active.id, true)
  | none =>
    if s.taskExists freshTaskId then none
    else some (s.createTask freshTaskId contextId now, freshTaskId, false)

/-- Outcome of the generation collaborator (`run(agent, userText, ...)`),
treated as a black box: the final output and last response id on success
— with whether the `request_clarification` callback fired during the run
— or the thrown error's message. -/
inductive GenOutcome
  | success (finalOutput : Option String) (lastResponseId : Option String) (clarified : Bool)
  | failure (errMsg : String)
deriving DecidableEq, Repr

/-- The literal fallback answer used when `result.finalOutput` is empty. -/
def fallbackText : String := "I was unable to generate a response."

/-- Mirrors the `message/send` (alias `tasks/send`) handler.  `freshCtx`
models the uuid minted when the request carries no `contextId`,
`freshTask` the uuid passed to `createTask`, `gen` the generation
collaborator's outcome and `now` the clock.  A generation failure is
rethrown into the route's outer catch, which answers HTTP 500 with
JSON-RPC code -32603 and the error's message; executed sequentially, the
clarification callback reads `activeRunTaskId` as this task's id. -/
def handleMessageSend (s : ServerState) (message : Option A2AMessage)
    (contextId : Option String) (freshCtx freshTask : String) (gen : GenOutcome)
    (now : Nat) : ServerState × RpcOutcome :=
  match message with
  | none => (s, .error 400 (-32602) "Missing message in params")
  | some msg =>
    if extractText msg = "" then (s, .error 400 (-32602) "Empty message text")
    else
      let ctx := contextId.getD freshCtx
      match resolveTask s.store ctx freshTask now with
      | none => (s, .error 500 (-32603) "primary key violation")
      | some (st1, taskId, resumed) =>
        let st2 := st1.updateTaskStatus taskId .working
          (some (if resumed then "Continuing..." else "Thinking...")) now
        match gen with
        | .failure e =>
          let flags := deleteFlag s.inputRequiredFlags taskId
          let st3 := st2.updateTaskStatus taskId .failed (some e) now
          ({ s with store := st3, inputRequiredFlags := flags, activeRunTaskId := none },
            .error 500 (-32603) e)
        | .success finalOutput lastResponseId clarified =>
          let flags1 := if clarified then setFlag s.inputRequiredFlags taskId
                        else s.inputRequiredFlags
          let output := finalOutput.getD fallbackText
          let st3 := match lastResponseId with
            | some rid => st2.setSession ctx rid now
            | none => st2
          let endState := (resolveEndState flags1 taskId).1
          let flags2 := (resolveEndState flags1 taskId).2
          let st4 := st3.setTaskArtifacts taskId
            [⟨"response", [⟨"text", some output⟩], none⟩] now
          let st5 := st4.updateTaskStatus taskId endState none now
          match st5.getTask taskId with
          | some task =>
            ({ s with store := st5, inputRequiredFlags := flags2, activeRunTaskId := none },
              .ok (taskToA2A task))
          | none =>
            -- `store.getTask(taskId)!` would throw into the outer catch;
            -- unreachable since the task row exists
            ({ s with store := st5, inputRequiredFlags := flags2, activeRunTaskId := none },
              .error 500 (-32603) "task missing")

/-- Mirrors the `tasks/get` handler. -/
def handleTasksGet (s : ServerState) (taskId : Option String) : ServerState × RpcOutcome :=
  match taskId with
  | none => (s, .error 400 (-32602) "Missing task id in params")
  | some tid =>
    match s.store.getTask tid with
    | none => (s, .error 404 (-32001) ("Task not found: " ++ tid))
    | some task => (s, .ok (taskToA2A task))

/-- Mirrors the `tasks/cancel` handler: rejects with -32002 only when the
task is already `completed` or `failed`; otherwise aborts any live
controller and marks the task `canceled`. -/
def handleTasksCancel (s : ServerState) (taskId : Option String) (now : Nat) :
    ServerState × RpcOutcome :=
  match taskId with
  | none => (s, .error 400 (-32602) "Missing task id in params")
  | some tid =>
    match s.store.getTask tid with
    | none => (s, .error 404 (-32001) ("Task not found: " ++ tid))
    | some task =>
      if task.state = .completed ∨ task.state = .failed then
        (s, .error 400 (-32002) ("Task already " ++ task.state.toWire))
      else
        let s1 := { s with abortControllers := deleteFlag s.abortControllers tid }
        let st := s1.store.updateTaskStatus tid .canceled (some "Canceled by client") now
        match st.getTask tid with
        | some updated => ({ s1 with store := st }, .ok (taskToA2A updated))
        | none => ({ s1 with store := st }, .error 500 (-32603) "task missing")

/-- The SSE events `message/stream` emits. -/
inductive SseEvent
  | statusUpdate (taskId contextId : String) (state : TaskState) (message : Option String)
  | artifactUpdate (taskId contextId : String) (name : String) (text : String)
      (append : Option Bool)
  | taskSnapshot (task : A2ATask)
  | done
deriving DecidableEq, Repr

/-- How a streamed `run` ended: normally (with final output and response
id), by an abort observed at the loop head, or by a thrown error. -/
inductive StreamEnd
  | completedRun (finalOutput : Option String) (lastResponseId : Option String)
  | aborted
  | errored (errMsg : String)
deriving DecidableEq, Repr

/-- Result of the `message/stream` handler: the invalid-request JSON
error when no SSE stream was opened, else the emitted event list. -/
structure StreamResult where
  state : ServerState
  rpcError : Option RpcOutcome
  events : List SseEvent
deriving DecidableEq, Repr

/-- Mirrors the `message/stream` (alias `tasks/sendSubscribe`) handler.
`deltas` are the text deltas the event loop relayed before the run ended
(each is appended to the task artifact and emitted with append=true),
`ending` how it ended, and `clarified` whether the clarification callback
fired during the run (executed sequentially, `activeRunTaskId` is this
task's id when it does). -/
def handleMessageStream (s : ServerState) (message : Option A2AMessage)
    (contextId : Option String) (freshCtx freshTask : String)
    (deltas : List String) (ending : StreamEnd) (clarified : Bool) (now : Nat) :
    StreamResult :=
  match message with
  | none => ⟨s, some (.error 400 (-32602) "Missing message in params"), []⟩
  | some msg =>
    if extractText msg = "" then ⟨s, some (.error 400 (-32602) "Empty message text"), []⟩
    else
      let ctx := contextId.getD freshCtx
      match resolveTask s.store ctx freshTask now with
      | none => ⟨s, some (.error 500 (-32603) "primary key violation"), []⟩
      | some (st1, taskId, resumed) =>
        let s1 := { s with store := st1,
                           abortControllers := setFlag s.abortControllers taskId }
        -- clear previous artifacts when resuming
        let st2 := if resumed then s1.store.setTaskArtifacts taskId [] now else s1.store
        let workingMsg := if resumed then "Continuing..." else "Thinking..."
        let st3 := st2.updateTaskStatus taskId .working (some workingMsg) now
        let ev0 := [SseEvent.statusUpdate taskId ctx .working (some workingMsg)]
        let stD := deltas.foldl (fun acc d => acc.appendToTaskArtifact taskId d now) st3
        let evD := deltas.map
          (fun d => SseEvent.artifactUpdate taskId ctx "response" d (some true))
        let flags1 := if clarified then setFlag s1.inputRequiredFlags taskId
                      else s1.inputRequiredFlags
        match ending with
        | .aborted =>
          let flags2 := deleteFlag flags1 taskId
          let st4 := stD.updateTaskStatus taskId .canceled (some "Canceled by client") now
          let evC := [SseEvent.statusUpdate taskId ctx .canceled (some "Canceled by client")]
            ++ (match st4.getTask taskId with
                | some t => [SseEvent.taskSnapshot (taskToA2A t)]
                | none => [])
            ++ [SseEvent.done]
          ⟨{ s1 with store := st4, inputRequiredFlags := flags2,
                     activeRunTaskId := none,
                     abortControllers := deleteFlag s1.abortControllers taskId },
            none, ev0 ++ evD ++ evC⟩
        | .errored e =>
          let flags2 := deleteFlag flags1 taskId
          let st4 := stD.updateTaskStatus taskId .failed (some e) now
          let evF := [SseEvent.statusUpdate taskId ctx .failed (some e)]
            ++ (match st4.getTask taskId with
                | some t => [SseEvent.taskSnapshot (taskToA2A t)]
                | none => [])
            ++ [SseEvent.done]
          ⟨{ s1 with store := st4, inputRequiredFlags := flags2,
                     activeRunTaskId := none,
                     abortControllers := deleteFlag s1.abortControllers taskId },
            none, ev0 ++ evD ++ evF⟩
        | .completedRun finalOutput lastResponseId =>
          let fullText := String.join deltas
          -- `if (!fullText && result.finalOutput)`: both are truthiness
          -- tests, so an empty finalOutput string does not trigger it
          let stEv :=
            if fullText = "" then
              match finalOutput with
              | some out =>
                if out = "" then (stD, ([] : List SseEvent))
                else
                  (stD.setTaskArtifacts taskId [⟨"response", [⟨"text", some out⟩], none⟩] now,
                    [SseEvent.artifactUpdate taskId ctx "response" out none])
              | none => (stD, ([] : List SseEvent))
            else (stD, [])
          let st5 := match lastResponseId with
            | some rid => stEv.1.setSession ctx rid now
            | none => stEv.1
          let endState := (resolveEndState flags1 taskId).1
          let flags2 := (resolveEndState flags1 taskId).2
          let st6 := st5.updateTaskStatus taskId endState none now
          let evE := [SseEvent.statusUpdate taskId ctx endState
              (if endState = .inputRequired then some "Waiting for user input" else none)]
            ++ (match st6.getTask taskId with
                | some t => [SseEvent.taskSnapshot (taskToA2A t)]
                | none => [])
            ++ [SseEvent.done]
          ⟨{ s1 with store := st6, inputRequiredFlags := flags2,
                     activeRunTaskId := none,
                     abortControllers := deleteFlag s1.abortControllers taskId },
            none, ev0 ++ evD ++ stEv.2 ++ evE⟩

/-! ## Supporting lemmas about the server model -/

theorem foldl_pickLatest_eq_some {l : List Task} :
    ∀ {acc : Option Task} {t : Task},
      l.foldl StoreState.pickLatest acc = some t → t ∈ l ∨ acc = some t := by
  induction l with
  | nil => intro acc t h; exact Or.inr h
  | cons u us ih =>
    intro acc t h
    rw [List.foldl_cons] at h
    rcases acc with _ | b
    · rcases ih h with h1 | h1
      · exact Or.inl (List.mem_cons_of_mem _ h1)
      · rw [show StoreState.pickLatest none u = some u from rfl] at h1
        cases h1
        exact Or.inl (List.mem_cons_self _ _)
    · rw [show StoreState.pickLatest (some b) u =
          (if b.updatedAt < u.updatedAt then some u else some b) from rfl] at h
      by_cases hb : b.updatedAt < u.updatedAt
      · rw [if_pos hb] at h
        rcases ih h with h1 | h1
        · exact Or.inl (List.mem_cons_of_mem _ h1)
        · cases h1; exact Or.inl (List.mem_cons_self _ _)
      · rw [if_neg hb] at h
        rcases ih h with h1 | h1
        · exact Or.inl (List.mem_cons_of_mem _ h1)
        · exact Or.inr h1

theorem foldl_pickLatest_ne_none {l : List Task} :
    ∀ {b : Task}, l.foldl StoreState.pickLatest (some b) ≠ none := by
  induction l with
  | nil => intro b h; exact Option.noConfusion h
  | cons u us ih =>
    intro b h
    rw [List.foldl_cons,
      show StoreState.pickLatest (some b) u =
        (if b.updatedAt < u.updatedAt then some u else some b) from rfl] at h
    by_cases hb : b.updatedAt < u.updatedAt
    · rw [if_pos hb] at h; exact ih h
    · rw [if_neg hb] at h; exact ih h

theorem getActiveTask_mem {s : StoreState} {ctx : String} {t : Task}
    (h : s.getActiveTask ctx = some t) :
    t ∈ s.tasks ∧ t.contextId = ctx ∧ t.state = .inputRequired := by
  rcases foldl_pickLatest_eq_some h with h1 | h1
  · have := List.mem_filter.mp h1
    refine ⟨this.1, ?_, ?_⟩ <;> have h2 := of_decide_eq_true this.2
    · exact h2.1
    · exact h2.2
  · exact Option.noConfusion h1

theorem getActiveTask_eq_none_iff {s : StoreState} {ctx : String} :
    s.getActiveTask ctx = none ↔
      s.tasks.filter
        (fun t => decide (t.contextId = ctx ∧ t.state = TaskState.inputRequired)) = [] := by
  unfold StoreState.getActiveTask
  constructor
  · intro h
    rcases hf : s.tasks.filter
        (fun t => decide (t.contextId = ctx ∧ t.state = TaskState.inputRequired)) with _ | ⟨u, us⟩
    · exact hf
    · rw [hf, List.foldl_cons, show StoreState.pickLatest none u = some u from rfl] at h
      exact absurd h foldl_pickLatest_ne_none
  · intro h
    rw [h]
    rfl

theorem getTask_mem {s : StoreState} {tid : String} {t : Task}
    (h : s.getTask tid = some t) : t ∈ s.tasks ∧ t.id = tid :=
  ⟨List.mem_of_find?_eq_some h, by simpa using List.find?_some h⟩

theorem getTask_setSession (s : StoreState) (ctx rid : String) (now : Nat) (tid : String) :
    (s.setSession ctx rid now).getTask tid = s.getTask tid := by
  unfold StoreState.setSession StoreState.getTask
  by_cases h : s.sessions.any (fun r => decide (r.contextId = ctx)) <;> simp [h]

theorem resolveTask_getTask {s : StoreState} {ctx fresh : String} {now : Nat}
    {st1 : StoreState} {tid : String} {resumed : Bool}
    (h : resolveTask s ctx fresh now = some (st1, tid, resumed)) :
    ∃ t, st1.getTask tid = some t := by
  unfold resolveTask at h
  rcases hact : s.getActiveTask ctx with _ | active
  · rw [hact] at h
    by_cases hex : s.taskExists fresh
    · rw [if_pos hex] at h; exact Option.noConfusion h
    · rw [if_neg hex] at h
      cases h
      refine ⟨⟨fresh, ctx, .submitted, none, [], now, now⟩, ?_⟩
      unfold StoreState.createTask StoreState.getTask
      rw [List.find?_append]
      have hnone : s.tasks.find? (fun t => decide (t.id = fresh)) = none := by
        have : ¬ (s.getTask fresh).isSome := by
          intro hcontra
          exact hex hcontra
        unfold StoreState.getTask at this
        rcases hf : s.tasks.find? (fun t => decide (t.id = fresh)) with _ | u
        · exact hf
        · rw [hf] at this; exact absurd rfl this
      rw [hnone, Option.none_or]
      simp [List.find?]
  · rw [hact] at h
    cases h
    obtain ⟨hmem, -, -⟩ := getActiveTask_mem hact
    have : ∃ u ∈ s.tasks, (fun t : Task => decide (t.id = active.id)) u = true :=
      ⟨active, hmem, by simp⟩
    obtain ⟨u, hu⟩ := Option.isSome_iff_exists.mp (List.find?_isSome.mpr this)
    exact ⟨u, hu⟩

/-! ## Claim C1 -/

/-- A server holding one `working` task "t1". -/
def c1Working : ServerState :=
  ⟨⟨[⟨"t1", "c1", .working, some "Thinking...", [], 0, 1⟩], []⟩, [], none, []⟩

/-- A server holding one `completed` task "t2". -/
def c1Completed : ServerState :=
  ⟨⟨[⟨"t2", "c1", .completed, none, [], 0, 1⟩], []⟩, [], none, []⟩

/-- C1 counterexample: on a server holding the single `working` task "t1",
the first tasks/cancel marks it `canceled`, but the second tasks/cancel on
the now-`canceled` task — which the claim requires to be rejected with a
-32002-class error — is not an error: the handler cancels it again and
answers with the task. -/
theorem c1_cancel_counterexample :
    (((handleTasksCancel c1Working (some "t1") 2).1.store.getTask "t1").map
        (fun t => t.state) = some .canceled) ∧
    ((handleTasksCancel (handleTasksCancel c1Working (some "t1") 2).1
        (some "t1") 3).2.isError = false) := by decide

/-- C1 (amended): tasks/cancel on a task that is not `completed`/`failed`
— in particular a `working` task, but also an already-`canceled` one —
transitions it to `canceled` and returns the updated task; tasks/cancel on
a `completed` or `failed` task is rejected with a -32002 error and the
server state, in particular the task's stored state, is unchanged. -/
theorem c1_cancel_spec (s : ServerState) (tid : String) (t : Task) (now : Nat)
    (ht : s.store.getTask tid = some t) :
    (t.state ≠ .completed → t.state ≠ .failed →
      (handleTasksCancel s (some tid) now).2 =
        .ok (taskToA2A { t with state := .canceled, message := some "Canceled by client",
                                updatedAt := now }) ∧
      (handleTasksCancel s (some tid) now).1.store.getTask tid =
        some { t with state := .canceled, message := some "Canceled by client",
                      updatedAt := now }) ∧
    ((t.state = .completed ∨ t.state = .failed) →
      (handleTasksCancel s (some tid) now).2 =
        .error 400 (-32002) ("Task already " ++ t.state.toWire) ∧
      (handleTasksCancel s (some tid) now).1 = s) := by
  have htid : t.id = tid := by simpa using List.find?_some ht
  have hg : (s.store.updateTaskStatus tid .canceled (some "Canceled by client") now).getTask
      tid = some { t with state := .canceled, message := some "Canceled by client",
                          updatedAt := now } := by
    rw [getTask_updateTaskStatus, ht, Option.map_some', if_pos htid]
  constructor
  · intro h1 h2
    have hcond : ¬ (t.state = .completed ∨ t.state = .failed) := by
      rintro (h | h)
      · exact h1 h
      · exact h2 h
    simp only [handleTasksCancel, ht, hcond, if_false]
    rw [show ({ s with abortControllers := deleteFlag s.abortControllers tid } :
        ServerState).store = s.store from rfl, hg]
    exact ⟨rfl, hg⟩
  · intro hterm
    have hres : handleTasksCancel s (some tid) now =
        (s, .error 400 (-32002) ("Task already " ++ t.state.toWire)) := by
      simp only [handleTasksCancel, ht, if_pos hterm]
    rw [hres]
    exact ⟨rfl, rfl⟩

/-- Witness for C1 at concrete servers: the `working` case cancels, the
`completed` case is rejected with -32002 and leaves the state unchanged. -/
theorem c1_cancel_spec_witness :
    ((handleTasksCancel c1Working (some "t1") 2).2 =
      .ok (taskToA2A ⟨"t1", "c1", .canceled, some "Canceled by client", [], 0, 2⟩)) ∧
    ((handleTasksCancel c1Completed (some "t2") 5).2 =
      .error 400 (-32002) "Task already completed") ∧
    ((handleTasksCancel c1Completed (some "t2") 5).1 = c1Completed) := by
  have h1 := (c1_cancel_spec c1Working "t1"
    ⟨"t1", "c1", .working, some "Thinking...", [], 0, 1⟩ 2 (by decide))
  have h2 := (c1_cancel_spec c1Completed "t2"
    ⟨"t2", "c1", .completed, none, [], 0, 1⟩ 5 (by decide))
  refine ⟨(h1.1 (by decide) (by decide)).1, ?_, (h2.2 (Or.inl rfl)).2⟩
  exact (h2.2 (Or.inl rfl)).1

theorem getTask_foldlAppend (tid : String) (now : Nat) (ds : List String) :
    ∀ (st : StoreState) (t : Task), st.getTask tid = some t →
      ∃ u, (ds.foldl (fun acc d => acc.appendToTaskArtifact tid d now) st).getTask tid =
          some u ∧
        u.id = t.id ∧ u.contextId = t.contextId ∧ u.state = t.state ∧ u.message = t.message ∧
        u.artifacts = ds.foldl StoreState.appendParts t.artifacts := by
  induction ds with
  | nil => intro st t h; exact ⟨t, h, rfl, rfl, rfl, rfl, rfl⟩
  | cons d ds ih =>
    intro st t h
    have htid : t.id = tid := by simpa using List.find?_some h
    have h1 : (st.appendToTaskArtifact tid d now).getTask tid =
        some { t with artifacts := StoreState.appendParts t.artifacts d,
                      updatedAt := now } := by
      rw [appendToTaskArtifact_of_getTask st h d now, getTask_setTaskArtifacts, h,
        Option.map_some', if_pos htid]
    obtain ⟨u, hu, h2, h3, h4, h5, h6⟩ := ih _ _ h1
    exact ⟨u, by simpa using hu, h2, h3, h4, h5, by simpa using h6⟩

/-! ## Claim C7 -/

/-- C7: when the generation call throws, the task transitions to `failed`
with the exception's message in the task's status message, the error is
surfaced to the caller (HTTP 500 / JSON-RPC -32603 for message/send,
which rethrows into the route's catch; a `failed` status-update event for
message/stream), and a later tasks/get for that task id answers with the
`failed` status carrying that message. -/
theorem c7_generation_failure (s : ServerState) (msg : A2AMessage)
    (contextId : Option String) (freshCtx freshTask : String) (e : String)
    (deltas : List String) (clarified : Bool) (now : Nat)
    (hmsg : ¬ extractText msg = "")
    {st1 : StoreState} {tid : String} {resumed : Bool}
    (hres : resolveTask s.store (contextId.getD freshCtx) freshTask now =
      some (st1, tid, resumed)) :
    ((handleMessageSend s (some msg) contextId freshCtx freshTask (.failure e) now).2 =
      .error 500 (-32603) e) ∧
    (∃ u, (handleTasksGet
        (handleMessageSend s (some msg) contextId freshCtx freshTask (.failure e) now).1
        (some tid)).2 = .ok u ∧ u.state = .failed ∧ u.message = some e) ∧
    (SseEvent.statusUpdate tid (contextId.getD freshCtx) .failed (some e) ∈
      (handleMessageStream s (some msg) contextId freshCtx freshTask deltas (.errored e)
        clarified now).events) ∧
    (∃ u, (handleTasksGet
        (handleMessageStream s (some msg) contextId freshCtx freshTask deltas (.errored e)
          clarified now).state (some tid)).2 = .ok u ∧ u.state = .failed ∧
        u.message = some e) := by
  obtain ⟨t1, ht1⟩ := resolveTask_getTask hres
  have ht1id : t1.id = tid := by simpa using List.find?_some ht1
  -- message/send failure path
  have hsend : handleMessageSend s (some msg) contextId freshCtx freshTask (.failure e) now =
      ({ s with
          store := (st1.updateTaskStatus tid .working
              (some (if resumed then "Continuing..." else "Thinking...")) now).updateTaskStatus
            tid .failed (some e) now,
          inputRequiredFlags := deleteFlag s.inputRequiredFlags tid,
          activeRunTaskId := none },
        .error 500 (-32603) e) := by
    simp only [handleMessageSend, if_neg hmsg, hres]
  have hgsend : ∃ u,
      (handleMessageSend s (some msg) contextId freshCtx freshTask
          (.failure e) now).1.store.getTask tid = some u ∧ u.state = .failed ∧
        u.message = some e := by
    rw [hsend]
    refine ⟨{ t1 with state := .failed, message := some e, updatedAt := now }, ?_, rfl, rfl⟩
    rw [getTask_updateTaskStatus, getTask_updateTaskStatus, ht1, Option.map_some',
      if_pos ht1id, Option.map_some']
    simp [ht1id]
  -- message/stream failure path
  have ht2 : ∃ u, (if resumed then st1.setTaskArtifacts tid ([] : List TaskArtifact) now
        else st1).getTask tid = some u := by
    by_cases hr : resumed
    · rw [if_pos hr, getTask_setTaskArtifacts, ht1]
      exact ⟨_, rfl⟩
    · rw [if_neg hr]
      exact ⟨t1, ht1⟩
  obtain ⟨t2, ht2⟩ := ht2
  have ht2id : t2.id = tid := by simpa using List.find?_some ht2
  have ht3 : ((if resumed then st1.setTaskArtifacts tid ([] : List TaskArtifact) now
        else st1).updateTaskStatus tid .working
        (some (if resumed then "Continuing..." else "Thinking...")) now).getTask tid =
      some { t2 with state := .working,
                     message := some (if resumed then "Continuing..." else "Thinking..."),
                     updatedAt := now } := by
    rw [getTask_updateTaskStatus, ht2, Option.map_some', if_pos ht2id]
  obtain ⟨u4, hu4, -, -, hu4st, hu4msg, -⟩ := getTask_foldlAppend tid now deltas _ _ ht3
  have hstream : (handleMessageStream s (some msg) contextId freshCtx freshTask deltas
      (.errored e) clarified now).state.store =
      ((deltas.foldl (fun acc d => acc.appendToTaskArtifact tid d now)
          ((if resumed then st1.setTaskArtifacts tid ([] : List TaskArtifact) now
            else st1).updateTaskStatus tid .working
            (some (if resumed then "Continuing..." else "Thinking...")) now))).updateTaskStatus
        tid .failed (some e) now := by
    simp only [handleMessageStream, if_neg hmsg, hres]
  have hgstream : ∃ u,
      (handleMessageStream s (some msg) contextId freshCtx freshTask deltas
          (.errored e) clarified now).state.store.getTask tid = some u ∧
        u.state = .failed ∧ u.message = some e := by
    rw [hstream]
    have hu4id : u4.id = tid := by simpa using List.find?_some hu4
    refine ⟨{ u4 with state := .failed, message := some e, updatedAt := now }, ?_, rfl, rfl⟩
    rw [getTask_updateTaskStatus, hu4, Option.map_some', if_pos hu4id]
  have hevents : SseEvent.statusUpdate tid (contextId.getD freshCtx) .failed (some e) ∈
      (handleMessageStream s (some msg) contextId freshCtx freshTask deltas (.errored e)
        clarified now).events := by
    simp only [handleMessageStream, if_neg hmsg, hres]
    simp [List.mem_append]
  refine ⟨by rw [hsend], ?_, hevents, ?_⟩
  · obtain ⟨u, hu, hust, humsg⟩ := hgsend
    refine ⟨taskToA2A u, ?_, hust, humsg⟩
    simp only [handleTasksGet, hu]
  · obtain ⟨u, hu, hust, humsg⟩ := hgstream
    refine ⟨taskToA2A u, ?_, hust, humsg⟩
    simp only [handleTasksGet, hu]

/-- A one-part text message used by the concrete scenarios. -/
def c7Msg : A2AMessage := ⟨"user", [⟨"text", some "hi"⟩]⟩

/-- Witness for C7: a failing generation on an empty server, for both the
synchronous and the streaming handler. -/
theorem c7_generation_failure_witness :
    ((handleMessageSend ServerState.empty (some c7Msg) (some "c1") "fc" "t1"
        (.failure "boom") 7).2 = .error 500 (-32603) "boom") ∧
    (∃ u, (handleTasksGet
        (handleMessageSend ServerState.empty (some c7Msg) (some "c1") "fc" "t1"
          (.failure "boom") 7).1 (some "t1")).2 = .ok u ∧ u.state = .failed ∧
        u.message = some "boom") ∧
    (SseEvent.statusUpdate "t1" "c1" .failed (some "boom") ∈
      (handleMessageStream ServerState.empty (some c7Msg) (some "c1") "fc" "t1" ["d"]
        (.errored "boom") false 7).events) ∧
    (∃ u, (handleTasksGet
        (handleMessageStream ServerState.empty (some c7Msg) (some "c1") "fc" "t1" ["d"]
          (.errored "boom") false 7).state (some "t1")).2 = .ok u ∧ u.state = .failed ∧
        u.message = some "boom") :=
  @c7_generation_failure ServerState.empty c7Msg (some "c1") "fc" "t1" "boom" ["d"] false 7
    (by decide) (StoreState.createTask ⟨[], []⟩ "t1" "c1" 7) "t1" false (by decide)

theorem foldl_append_eq (rest : List String) :
    ∀ a : String, rest.foldl (fun r s => r ++ s) a = a ++ String.join rest := by
  induction rest with
  | nil =>
    intro a
    rw [List.foldl_nil]
    exact (String.append_empty a).symm
  | cons d rest ih =>
    intro a
    rw [List.foldl_cons, ih (a ++ d), String.append_assoc]
    congr 1
    rw [show String.join (d :: rest) = rest.foldl (fun r s => r ++ s) ("" ++ d) from rfl,
      String.empty_append, ih d]

theorem string_join_cons (d : String) (rest : List String) :
    String.join (d :: rest) = d ++ String.join rest := by
  rw [show String.join (d :: rest) = rest.foldl (fun r s => r ++ s) ("" ++ d) from rfl,
    String.empty_append, foldl_append_eq rest d]

theorem foldl_appendParts_resp (rest : List String) :
    ∀ v : String,
      rest.foldl StoreState.appendParts [⟨"response", [⟨"text", some v⟩], none⟩] =
        [⟨"response", [⟨"text", some (v ++ String.join rest)⟩], none⟩] := by
  induction rest with
  | nil =>
    intro v
    rw [List.foldl_nil, show String.join [] = "" from rfl, String.append_empty]
  | cons d rest ih =>
    intro v
    rw [List.foldl_cons,
      show StoreState.appendParts [⟨"response", [⟨"text", some v⟩], none⟩] d =
        [⟨"response", [⟨"text", some (v ++ d)⟩], none⟩] from rfl,
      ih (v ++ d), string_join_cons, String.append_assoc]

theorem foldl_appendParts_nil_of_ne (ds : List String) (hne : ds ≠ []) :
    ds.foldl StoreState.appendParts [] =
      [⟨"response", [⟨"text", some (String.join ds)⟩], none⟩] := by
  match ds with
  | [] => exact absurd rfl hne
  | d :: rest =>
    rw [List.foldl_cons,
      show StoreState.appendParts [] d = [⟨"response", [⟨"text", some d⟩], none⟩] from rfl,
      foldl_appendParts_resp rest d, string_join_cons]

theorem tasks_setSession (s : StoreState) (ctx rid : String) (now : Nat) :
    (s.setSession ctx rid now).tasks = s.tasks := by
  unfold StoreState.setSession
  by_cases h : s.sessions.any (fun r => decide (r.contextId = ctx)) <;> simp [h]

theorem length_updateTaskStatus (s : StoreState) (tid : String) (st : TaskState)
    (m : Option String) (now : Nat) :
    (s.updateTaskStatus tid st m now).tasks.length = s.tasks.length := by
  simp [StoreState.updateTaskStatus]

theorem length_setTaskArtifacts (s : StoreState) (tid : String)
    (arts : List TaskArtifact) (now : Nat) :
    (s.setTaskArtifacts tid arts now).tasks.length = s.tasks.length := by
  simp [StoreState.setTaskArtifacts]

theorem length_appendToTaskArtifact (s : StoreState) (tid d : String) (now : Nat) :
    (s.appendToTaskArtifact tid d now).tasks.length = s.tasks.length := by
  unfold StoreState.appendToTaskArtifact
  rcases h : s.getTask tid with _ | t
  · rfl
  · exact length_setTaskArtifacts s tid _ now

theorem length_foldlAppend (tid : String) (now : Nat) (ds : List String) :
    ∀ st : StoreState,
      (ds.foldl (fun acc d => acc.appendToTaskArtifact tid d now) st).tasks.length =
        st.tasks.length := by
  induction ds with
  | nil => intro st; rfl
  | cons d ds ih =>
    intro st
    rw [List.foldl_cons, ih _, length_appendToTaskArtifact]

theorem handleMessageSend_success_store_none (s : ServerState) (msg : A2AMessage)
    (ctxOpt : Option String) (freshCtx freshTask : String) (fo : Option String)
    (cl : Bool) (now : Nat) (hmsg : ¬ extractText msg = "")
    {st1 : StoreState} {tid : String} {resumed : Bool}
    (hres : resolveTask s.store (ctxOpt.getD freshCtx) freshTask now =
      some (st1, tid, resumed)) :
    (handleMessageSend s (some msg) ctxOpt freshCtx freshTask
        (.success fo none cl) now).1.store =
      ((st1.updateTaskStatus tid .working
          (some (if resumed then "Continuing..." else "Thinking...")) now).setTaskArtifacts
        tid [⟨"response", [⟨"text", some (fo.getD fallbackText)⟩], none⟩]
        now).updateTaskStatus tid
        (resolveEndState (if cl then setFlag s.inputRequiredFlags tid
          else s.inputRequiredFlags) tid).1 none now := by
  simp only [handleMessageSend, if_neg hmsg, hres]
  split <;> rfl

theorem handleMessageSend_success_store_some (s : ServerState) (msg : A2AMessage)
    (ctxOpt : Option String) (freshCtx freshTask : String) (fo : Option String)
    (r : String) (cl : Bool) (now : Nat) (hmsg : ¬ extractText msg = "")
    {st1 : StoreState} {tid : String} {resumed : Bool}
    (hres : resolveTask s.store (ctxOpt.getD freshCtx) freshTask now =
      some (st1, tid, resumed)) :
    (handleMessageSend s (some msg) ctxOpt freshCtx freshTask
        (.success fo (some r) cl) now).1.store =
      (((st1.updateTaskStatus tid .working
          (some (if resumed then "Continuing..." else "Thinking...")) now).setSession
          (ctxOpt.getD freshCtx) r now).setTaskArtifacts
        tid [⟨"response", [⟨"text", some (fo.getD fallbackText)⟩], none⟩]
        now).updateTaskStatus tid
        (resolveEndState (if cl then setFlag s.inputRequiredFlags tid
          else s.inputRequiredFlags) tid).1 none now := by
  simp only [handleMessageSend, if_neg hmsg, hres]
  split <;> rfl

/-! ## Claim C2 -/

/-- C2: for a context holding an `input-required` task, a subsequent
message/send or message/stream on the same contextId resolves to that
existing task: `resolveTask` answers the same task id with resumed=true
and an unchanged store (no task is created; the task-table size is also
unchanged after the whole turn), and the prior artifacts are replaced
before the new turn's answer is recorded (message/stream clears them and
appends the new deltas; message/send overwrites them wholesale), so at
the end of the turn the task's artifact holds only the new answer. -/
theorem c2_resume_replaces_artifacts (s : ServerState) (ctx freshCtx freshTask : String)
    (t : Task) (now : Nat) (msg : A2AMessage)
    (hmsg : ¬ extractText msg = "")
    (hactive : s.store.getActiveTask ctx = some t) :
    (resolveTask s.store ctx freshTask now = some (s.store, t.id, true)) ∧
    (∀ (out : String) (rid : Option String) (cl : Bool),
      (handleMessageSend s (some msg) (some ctx) freshCtx freshTask
          (.success (some out) rid cl) now).1.store.tasks.length =
        s.store.tasks.length ∧
      ∃ u, (handleMessageSend s (some msg) (some ctx) freshCtx freshTask
            (.success (some out) rid cl) now).1.store.getTask t.id = some u ∧
        u.artifacts = [⟨"response", [⟨"text", some out⟩], none⟩]) ∧
    (∀ (ds : List String) (fo rid : Option String) (cl : Bool),
      ¬ String.join ds = "" →
      (handleMessageStream s (some msg) (some ctx) freshCtx freshTask ds
          (.completedRun fo rid) cl now).state.store.tasks.length =
        s.store.tasks.length ∧
      ∃ u, (handleMessageStream s (some msg) (some ctx) freshCtx freshTask ds
            (.completedRun fo rid) cl now).state.store.getTask t.id = some u ∧
        u.artifacts = [⟨"response", [⟨"text", some (String.join ds)⟩], none⟩]) := by
  have hres : resolveTask s.store ctx freshTask now = some (s.store, t.id, true) := by
    unfold resolveTask
    rw [hactive]
  obtain ⟨hmem, hctx, hir⟩ := getActiveTask_mem hactive
  have hsome : (s.store.getTask t.id).isSome :=
    List.find?_isSome.mpr ⟨t, hmem, by simp⟩
  obtain ⟨t0, ht0⟩ := Option.isSome_iff_exists.mp hsome
  have ht0id : t0.id = t.id := by simpa using List.find?_some ht0
  refine ⟨hres, ?_, ?_⟩
  · intro out rid cl
    rcases rid with _ | r
    · rw [handleMessageSend_success_store_none s msg (some ctx) freshCtx freshTask
        (some out) cl now hmsg hres]
      refine ⟨by rw [length_updateTaskStatus, length_setTaskArtifacts,
        length_updateTaskStatus], ?_⟩
      rw [getTask_updateTaskStatus, getTask_setTaskArtifacts, getTask_updateTaskStatus,
        ht0, Option.map_some', if_pos ht0id, Option.map_some', if_pos ht0id,
        Option.map_some', if_pos ht0id]
      exact ⟨_, rfl, rfl⟩
    · rw [handleMessageSend_success_store_some s msg (some ctx) freshCtx freshTask
        (some out) r cl now hmsg hres]
      refine ⟨?_, ?_⟩
      · rw [length_updateTaskStatus, length_setTaskArtifacts]
        rw [show (((s.store.updateTaskStatus t.id .working
            (some (if true then "Continuing..." else "Thinking...")) now).setSession
            ((some ctx).getD freshCtx) r now)).tasks =
          ((s.store.updateTaskStatus t.id .working
            (some (if true then "Continuing..." else "Thinking...")) now)).tasks
          from tasks_setSession _ _ _ _, length_updateTaskStatus]
      · rw [getTask_updateTaskStatus, getTask_setTaskArtifacts, getTask_setSession,
          getTask_updateTaskStatus, ht0, Option.map_some', if_pos ht0id,
          Option.map_some', if_pos ht0id, Option.map_some', if_pos ht0id]
        exact ⟨_, rfl, rfl⟩
  · intro ds fo rid cl hjoin
    have hdne : ds ≠ [] := by
      intro h
      rw [h] at hjoin
      exact hjoin rfl
    have hst3 : ((s.store.setTaskArtifacts t.id ([] : List TaskArtifact)
          now).updateTaskStatus t.id .working (some "Continuing...") now).getTask t.id =
        some { t0 with artifacts := [], state := .working,
                       message := some "Continuing...", updatedAt := now } := by
      rw [getTask_updateTaskStatus, getTask_setTaskArtifacts, ht0, Option.map_some',
        if_pos ht0id, Option.map_some', if_pos ht0id]
    obtain ⟨u4, hu4, hu4id0, -, -, -, hu4arts⟩ :=
      getTask_foldlAppend t.id now ds _ _ hst3
    have hu4id : u4.id = t.id := (show u4.id = t0.id from hu4id0).trans ht0id
    have hu4arts' : u4.artifacts =
        [⟨"response", [⟨"text", some (String.join ds)⟩], none⟩] := by
      rw [hu4arts]
      exact foldl_appendParts_nil_of_ne ds hdne
    rcases rid with _ | r
    · have hsstore : (handleMessageStream s (some msg) (some ctx) freshCtx freshTask ds
          (.completedRun fo none) cl now).state.store =
          (ds.foldl (fun acc d => acc.appendToTaskArtifact t.id d now)
            ((s.store.setTaskArtifacts t.id ([] : List TaskArtifact) now).updateTaskStatus
              t.id .working (some "Continuing...") now)).updateTaskStatus t.id
            (resolveEndState (if cl then setFlag s.inputRequiredFlags t.id
              else s.inputRequiredFlags) t.id).1 none now := by
        simp only [handleMessageStream, if_neg hmsg, Option.getD_some, hres,
          if_neg hjoin, eq_self_iff_true, if_true]
      rw [hsstore]
      refine ⟨by rw [length_updateTaskStatus, length_foldlAppend,
        length_updateTaskStatus, length_setTaskArtifacts], ?_⟩
      rw [getTask_updateTaskStatus, hu4, Option.map_some', if_pos hu4id]
      refine ⟨_, rfl, ?_⟩
      simpa using hu4arts'
    · have hsstore : (handleMessageStream s (some msg) (some ctx) freshCtx freshTask ds
          (.completedRun fo (some r)) cl now).state.store =
          ((ds.foldl (fun acc d => acc.appendToTaskArtifact t.id d now)
            ((s.store.setTaskArtifacts t.id ([] : List TaskArtifact) now).updateTaskStatus
              t.id .working (some "Continuing...") now)).setSession ctx r
            now).updateTaskStatus t.id
            (resolveEndState (if cl then setFlag s.inputRequiredFlags t.id
              else s.inputRequiredFlags) t.id).1 none now := by
        simp only [handleMessageStream, if_neg hmsg, Option.getD_some, hres,
          if_neg hjoin, eq_self_iff_true, if_true]
      rw [hsstore]
      constructor
      · rw [length_updateTaskStatus]
        rw [show ((ds.foldl (fun acc d => acc.appendToTaskArtifact t.id d now)
            ((s.store.setTaskArtifacts t.id ([] : List TaskArtifact) now).updateTaskStatus
              t.id .working (some "Continuing...") now)).setSession ctx r now).tasks =
          (ds.foldl (fun acc d => acc.appendToTaskArtifact t.id d now)
            ((s.store.setTaskArtifacts t.id ([] : List TaskArtifact) now).updateTaskStatus
              t.id .working (some "Continuing...") now)).tasks from tasks_setSession _ _ _ _]
        rw [length_foldlAppend, length_updateTaskStatus, length_setTaskArtifacts]
      · rw [getTask_updateTaskStatus, getTask_setSession, hu4, Option.map_some',
          if_pos hu4id]
        refine ⟨_, rfl, ?_⟩
        simpa using hu4arts'

/-- A server holding one `input-required` task with a prior partial
answer. -/
def c2Server : ServerState :=
  ⟨⟨[⟨"t1", "c1", .inputRequired, some "Waiting for user input",
      [⟨"response", [⟨"text", some "old partial"⟩], none⟩], 0, 1⟩], []⟩, [], none, []⟩

/-- Witness for C2 on a concrete resumed context: the same task id is
reused and the old partial answer is gone from the artifacts. -/
theorem c2_resume_replaces_artifacts_witness :
    (resolveTask c2Server.store "c1" "tX" 5 = some (c2Server.store, "t1", true)) ∧
    (∃ u, (handleMessageSend c2Server (some c7Msg) (some "c1") "fc" "tX"
          (.success (some "new answer") none false) 5).1.store.getTask "t1" = some u ∧
      u.artifacts = [⟨"response", [⟨"text", some "new answer"⟩], none⟩]) ∧
    (∃ u, (handleMessageStream c2Server (some c7Msg) (some "c1") "fc" "tX" ["n", "a"]
          (.completedRun none none) false 5).state.store.getTask "t1" = some u ∧
      u.artifacts = [⟨"response", [⟨"text", some (String.join ["n", "a"])⟩], none⟩]) := by
  have h := c2_resume_replaces_artifacts c2Server "c1" "fc" "tX"
    ⟨"t1", "c1", .inputRequired, some "Waiting for user input",
      [⟨"response", [⟨"text", some "old partial"⟩], none⟩], 0, 1⟩ 5 c7Msg
    (by decide) (by decide)
  exact ⟨h.1, (h.2.1 "new answer" none false).2,
    (h.2.2 ["n", "a"] none none false (by decide)).2⟩

/-! ## Claim C3: skeleton and counting machinery -/

/-- The (id, contextId, state) skeleton of a task row: the only data the
input-required invariant depends on. -/
def taskKey (t : Task) : String × String × TaskState := (t.id, t.contextId, t.state)

/-- Skeleton of the whole tasks table. -/
def skeleton (st : StoreState) : List (String × String × TaskState) :=
  st.tasks.map taskKey

/-- Number of `input-required` rows of a context, on skeletons. -/
def irCountK (ks : List (String × String × TaskState)) (ctx : String) : Nat :=
  (ks.filter (fun k => decide (k.2.1 = ctx ∧ k.2.2 = TaskState.inputRequired))).length

/-- Number of `input-required` tasks of a context in the store. -/
def irCount (st : StoreState) (ctx : String) : Nat :=
  (st.tasks.filter
    (fun t => decide (t.contextId = ctx ∧ t.state = TaskState.inputRequired))).length

theorem irCount_eq_irCountK (st : StoreState) (ctx : String) :
    irCount st ctx = irCountK (skeleton st) ctx := by
  unfold irCount irCountK skeleton
  rw [List.filter_map, List.length_map]
  apply congrArg List.length
  apply List.filter_congr
  intro t _
  rfl

/-- The status-update on skeletons. -/
def updK (ks : List (String × String × TaskState)) (tid : String) (stt : TaskState) :
    List (String × String × TaskState) :=
  ks.map (fun k => if k.1 = tid then (k.1, k.2.1, stt) else k)

theorem skeleton_updateTaskStatus (st : StoreState) (tid : String) (stt : TaskState)
    (m : Option String) (now : Nat) :
    skeleton (st.updateTaskStatus tid stt m now) = updK (skeleton st) tid stt := by
  unfold skeleton StoreState.updateTaskStatus updK
  simp only [List.map_map]
  apply List.map_congr_left
  intro t _
  by_cases h : t.id = tid <;> simp [taskKey, Function.comp, h]

theorem skeleton_setTaskArtifacts (st : StoreState) (tid : String)
    (arts : List TaskArtifact) (now : Nat) :
    skeleton (st.setTaskArtifacts tid arts now) = skeleton st := by
  unfold skeleton StoreState.setTaskArtifacts
  simp only [List.map_map]
  apply List.map_congr_left
  intro t _
  by_cases h : t.id = tid <;> simp [taskKey, Function.comp, h]

theorem skeleton_appendToTaskArtifact (st : StoreState) (tid d : String) (now : Nat) :
    skeleton (st.appendToTaskArtifact tid d now) = skeleton st := by
  unfold StoreState.appendToTaskArtifact
  rcases h : st.getTask tid with _ | t
  · rfl
  · exact skeleton_setTaskArtifacts st tid _ now

theorem skeleton_foldlAppend (tid : String) (now : Nat) (ds : List String) :
    ∀ st : StoreState,
      skeleton (ds.foldl (fun acc d => acc.appendToTaskArtifact tid d now) st) =
        skeleton st := by
  induction ds with
  | nil => intro st; rfl
  | cons d ds ih =>
    intro st
    rw [List.foldl_cons, ih _, skeleton_appendToTaskArtifact]

theorem skeleton_setSession (st : StoreState) (ctx rid : String) (now : Nat) :
    skeleton (st.setSession ctx rid now) = skeleton st := by
  unfold skeleton
  rw [tasks_setSession]

theorem skeleton_createTask (st : StoreState) (id ctx : String) (now : Nat) :
    skeleton (st.createTask id ctx now) =
      skeleton st ++ [(id, ctx, TaskState.submitted)] := by
  unfold skeleton StoreState.createTask
  simp [taskKey]

theorem updK_updK (ks : List (String × String × TaskState)) (tid : String)
    (s1 s2 : TaskState) :
    updK (updK ks tid s1) tid s2 = updK ks tid s2 := by
  unfold updK
  simp only [List.map_map]
  apply List.map_congr_left
  intro k _
  by_cases h : k.1 = tid <;> simp [Function.comp, h]

theorem updK_fst (ks : List (String × String × TaskState)) (tid : String)
    (stt : TaskState) : (updK ks tid stt).map (·.1) = ks.map (·.1) := by
  unfold updK
  simp only [List.map_map]
  apply List.map_congr_left
  intro k _
  by_cases h : k.1 = tid <;> simp [Function.comp, h]

theorem irCountK_updK (ks : List (String × String × TaskState)) (tid ctx : String)
    (stt : TaskState) :
    irCountK (updK ks tid stt) ctx =
      (ks.filter (fun k => decide (¬ k.1 = tid ∧ k.2.1 = ctx ∧
          k.2.2 = TaskState.inputRequired))).length +
      (if stt = TaskState.inputRequired then
        (ks.filter (fun k => decide (k.1 = tid ∧ k.2.1 = ctx))).length
       else 0) := by
  induction ks with
  | nil => simp [irCountK, updK]
  | cons k ks ih =>
    unfold irCountK updK at ih ⊢
    simp only [← List.countP_eq_length_filter] at ih ⊢
    simp only [List.map_cons, List.countP_cons]
    rw [ih]
    by_cases h1 : k.1 = tid
    · by_cases h2 : k.2.1 = ctx <;> by_cases h3 : stt = TaskState.inputRequired <;>
        simp [h1, h2, h3] <;> omega
    · by_cases h2 : k.2.1 = ctx <;> by_cases h3 : stt = TaskState.inputRequired <;>
        by_cases h4 : k.2.2 = TaskState.inputRequired <;> simp [h1, h2, h3, h4] <;> omega

theorem length_filter_le_of_imp {α : Type} (l : List α) (p q : α → Bool)
    (h : ∀ a, p a = true → q a = true) :
    (l.filter p).length ≤ (l.filter q).length := by
  induction l with
  | nil => simp
  | cons a l ih =>
    by_cases hp : p a
    · have hq := h a hp
      simp only [List.filter_cons, hp, hq, if_true, List.length_cons]
      omega
    · by_cases hq : q a <;>
        simp only [List.filter_cons, hp, hq, if_true, if_false, Bool.false_eq_true,
          List.length_cons] <;> omega

theorem length_filter_key_le_one (ks : List (String × String × TaskState)) (tid : String)
    (p : String × String × TaskState → Bool)
    (hp : ∀ k, p k = true → k.1 = tid) :
    ∀ (_ : (ks.map (·.1)).Nodup), (ks.filter p).length ≤ 1 := by
  induction ks with
  | nil => intro _; simp
  | cons k ks ih =>
    intro hnodup
    rw [List.map_cons, List.nodup_cons] at hnodup
    by_cases hpk : p k
    · have hempty : ks.filter p = [] := by
        rw [List.filter_eq_nil_iff]
        intro u hu hpu
        apply hnodup.1
        rw [hp k hpk, ← hp u hpu]
        exact List.mem_map_of_mem _ hu
      simp [List.filter_cons, hpk, hempty]
    · simp only [List.filter_cons, hpk, Bool.false_eq_true, if_false]
      exact ih hnodup.2

/-- Master invariant-preservation lemma: running one task to its end
state preserves the at-most-one-input-required-per-context bound, given
unique ids, the bound before the run, no foreign `input-required` row in
the run's context, and the run's task id living in that context. -/
theorem irCountK_after_run (ks : List (String × String × TaskState)) (tid ctx0 : String)
    (endSt : TaskState)
    (hnodup : (ks.map (·.1)).Nodup)
    (hinv : ∀ ctx, irCountK ks ctx ≤ 1)
    (hA : ∀ k ∈ ks, ¬ k.1 = tid → k.2.1 = ctx0 → ¬ k.2.2 = TaskState.inputRequired)
    (hB : ∀ k ∈ ks, k.1 = tid → k.2.1 = ctx0) :
    ∀ ctx, irCountK (updK ks tid endSt) ctx ≤ 1 := by
  intro ctx
  rw [irCountK_updK]
  by_cases hctx : ctx = ctx0
  · subst hctx
    have hA0 : ks.filter (fun k => decide (¬ k.1 = tid ∧ k.2.1 = ctx ∧
        k.2.2 = TaskState.inputRequired)) = [] := by
      rw [List.filter_eq_nil_iff]
      intro k hk hdec
      obtain ⟨h1, h2, h3⟩ := of_decide_eq_true hdec
      exact hA k hk h1 h2 h3
    rw [hA0]
    simp only [List.length_nil, Nat.zero_add]
    by_cases hend : endSt = TaskState.inputRequired
    · rw [if_pos hend]
      exact length_filter_key_le_one ks tid _
        (fun k h => (of_decide_eq_true h).1) hnodup
    · rw [if_neg hend]
      exact Nat.zero_le 1
  · have hB0 : ks.filter (fun k => decide (k.1 = tid ∧ k.2.1 = ctx)) = [] := by
      rw [List.filter_eq_nil_iff]
      intro k hk hdec
      obtain ⟨h1, h2⟩ := of_decide_eq_true hdec
      exact hctx ((h2.symm).trans (hB k hk h1))
    rw [hB0]
    have hle : (ks.filter (fun k => decide (¬ k.1 = tid ∧ k.2.1 = ctx ∧
        k.2.2 = TaskState.inputRequired))).length ≤ irCountK ks ctx := by
      apply length_filter_le_of_imp
      intro k hk
      obtain ⟨-, h2, h3⟩ := of_decide_eq_true hk
      exact decide_eq_true (And.intro h2 h3)
    have : irCountK ks ctx ≤ 1 := hinv ctx
    by_cases hend : endSt = TaskState.inputRequired
    · rw [if_pos hend]
      simp only [List.length_nil]
      omega
    · rw [if_neg hend]
      omega

/-- Unique primary keys plus the at-most-one-input-required bound. -/
def StoreInv (st : StoreState) : Prop :=
  (st.tasks.map (fun t => t.id)).Nodup ∧ ∀ ctx, irCount st ctx ≤ 1

theorem ids_eq_skeleton_fst (st : StoreState) :
    st.tasks.map (fun t => t.id) = (skeleton st).map (·.1) := by
  unfold skeleton
  rw [List.map_map]
  apply List.map_congr_left
  intro t _
  rfl

theorem two_le_length_of_mem {α : Type} {l : List α} {a b : α}
    (ha : a ∈ l) (hb : b ∈ l) (hne : a ≠ b) : 2 ≤ l.length := by
  induction l with
  | nil => exact absurd ha (List.not_mem_nil a)
  | cons x xs ih =>
    rcases List.mem_cons.mp ha with rfl | ha'
    · rcases List.mem_cons.mp hb with heq | hb'
      · exact absurd heq.symm hne
      · have := List.length_pos.mpr (List.ne_nil_of_mem hb')
        simp only [List.length_cons]
        omega
    · rcases List.mem_cons.mp hb with rfl | hb'
      · have := List.length_pos.mpr (List.ne_nil_of_mem ha')
        simp only [List.length_cons]
        omega
      · have := ih ha' hb'
        simp only [List.length_cons]
        omega

theorem resolveTask_facts {st : StoreState} {ctx fresh : String} {now : Nat}
    {st1 : StoreState} {tid : String} {resumed : Bool}
    (hinv : StoreInv st)
    (h : resolveTask st ctx fresh now = some (st1, tid, resumed)) :
    StoreInv st1 ∧
    (∀ t ∈ st1.tasks, ¬ t.id = tid → t.contextId = ctx →
      ¬ t.state = TaskState.inputRequired) ∧
    (∀ t ∈ st1.tasks, t.id = tid → t.contextId = ctx) := by
  unfold resolveTask at h
  rcases hact : st.getActiveTask ctx with _ | active
  · rw [hact] at h
    by_cases hex : st.taskExists fresh
    · rw [if_pos hex] at h
      exact Option.noConfusion h
    · rw [if_neg hex] at h
      cases h
      have hfreshNot : ∀ t ∈ st.tasks, ¬ t.id = fresh := by
        intro t htmem heq
        apply hex
        exact List.find?_isSome.mpr ⟨t, htmem, by simp [heq]⟩
      have hC0 : st.tasks.filter
          (fun t => decide (t.contextId = ctx ∧ t.state = TaskState.inputRequired)) = [] :=
        getActiveTask_eq_none_iff.mp hact
      have htasks : (st.createTask fresh ctx now).tasks = st.tasks ++
          [{ id := fresh, contextId := ctx, state := .submitted, message := none,
             artifacts := [], createdAt := now, updatedAt := now }] := rfl
      refine ⟨⟨?_, ?_⟩, ?_, ?_⟩
      · rw [htasks, List.map_append]
        apply List.Nodup.append hinv.1 (by simp)
        intro a ha hb
        rw [List.mem_map] at ha
        obtain ⟨t, htmem, rfl⟩ := ha
        simp only [List.map_cons, List.map_nil, List.mem_singleton] at hb
        exact hfreshNot t htmem hb
      · intro c
        have hsame : irCount (st.createTask fresh ctx now) c = irCount st c := by
          unfold irCount
          rw [htasks, List.filter_append]
          simp
        rw [hsame]
        exact hinv.2 c
      · intro t htmem h1 h2 h3
        rw [htasks] at htmem
        rcases List.mem_append.mp htmem with hmem | hmem
        · have : t ∈ st.tasks.filter
              (fun t => decide (t.contextId = ctx ∧ t.state = TaskState.inputRequired)) :=
            List.mem_filter.mpr ⟨hmem, by simp [h2, h3]⟩
          rw [hC0] at this
          exact absurd this (List.not_mem_nil t)
        · rw [List.mem_singleton] at hmem
          rw [hmem] at h1
          exact h1 rfl
      · intro t htmem h1
        rw [htasks] at htmem
        rcases List.mem_append.mp htmem with hmem | hmem
        · exact absurd h1 (hfreshNot t hmem)
        · rw [List.mem_singleton] at hmem
          rw [hmem]
  · rw [hact] at h
    cases h
    obtain ⟨hamem, hactx, hair⟩ := getActiveTask_mem hact
    refine ⟨hinv, ?_, ?_⟩
    · intro t htmem h1 h2 h3
      have htf : t ∈ st.tasks.filter
          (fun t => decide (t.contextId = ctx ∧ t.state = TaskState.inputRequired)) :=
        List.mem_filter.mpr ⟨htmem, by simp [h2, h3]⟩
      have haf : active ∈ st.tasks.filter
          (fun t => decide (t.contextId = ctx ∧ t.state = TaskState.inputRequired)) :=
        List.mem_filter.mpr ⟨hamem, by simp [hactx, hair]⟩
      have hne : t ≠ active := fun he => h1 (by rw [he])
      have h2le := two_le_length_of_mem htf haf hne
      have hb := hinv.2 ctx
      unfold irCount at hb
      omega
    · intro t htmem h1
      have := List.inj_on_of_nodup_map hinv.1 htmem hamem h1
      rw [this]
      exact hactx

/-- Master preservation lemma at the store level: any store whose
skeleton is the resolved store's skeleton with the run's task set to its
end state satisfies the invariant again. -/
theorem storeInv_of_run (st1 : StoreState) (tid ctx : String) (endSt : TaskState)
    (hinv : StoreInv st1)
    (hA : ∀ t ∈ st1.tasks, ¬ t.id = tid → t.contextId = ctx →
      ¬ t.state = TaskState.inputRequired)
    (hB : ∀ t ∈ st1.tasks, t.id = tid → t.contextId = ctx)
    (st' : StoreState) (hskel : skeleton st' = updK (skeleton st1) tid endSt) :
    StoreInv st' := by
  constructor
  · rw [ids_eq_skeleton_fst, hskel, updK_fst, ← ids_eq_skeleton_fst]
    exact hinv.1
  · intro c
    rw [irCount_eq_irCountK, hskel]
    apply irCountK_after_run (skeleton st1) tid ctx endSt
    · rw [← ids_eq_skeleton_fst]
      exact hinv.1
    · intro c2
      rw [← irCount_eq_irCountK]
      exact hinv.2 c2
    · intro k hk h1 h2 h3
      obtain ⟨t, htmem, rfl⟩ := List.mem_map.mp hk
      exact hA t htmem h1 h2 h3
    · intro k hk h1
      obtain ⟨t, htmem, rfl⟩ := List.mem_map.mp hk
      exact hB t htmem h1

theorem storeInv_updateTaskStatus_notIR (st : StoreState) (tid : String)
    (stt : TaskState) (m : Option String) (now : Nat)
    (hstt : ¬ stt = TaskState.inputRequired) (h : StoreInv st) :
    StoreInv (st.updateTaskStatus tid stt m now) := by
  constructor
  · rw [ids_eq_skeleton_fst, skeleton_updateTaskStatus, updK_fst, ← ids_eq_skeleton_fst]
    exact h.1
  · intro c
    rw [irCount_eq_irCountK, skeleton_updateTaskStatus, irCountK_updK, if_neg hstt]
    have hle : ((skeleton st).filter (fun k => decide (¬ k.1 = tid ∧ k.2.1 = c ∧
        k.2.2 = TaskState.inputRequired))).length ≤ irCountK (skeleton st) c := by
      apply length_filter_le_of_imp
      intro k hk
      obtain ⟨-, h2, h3⟩ := of_decide_eq_true hk
      exact decide_eq_true ⟨h2, h3⟩
    have h2 := h.2 c
    rw [irCount_eq_irCountK] at h2
    omega

/-- One sequentially executed A2A operation, together with its
environment inputs (fresh uuids, the collaborator outcome, the clock). -/
inductive A2AOp
  | send (message : Option A2AMessage) (contextId : Option String)
      (freshCtx freshTask : String) (gen : GenOutcome) (now : Nat)
  | stream (message : Option A2AMessage) (contextId : Option String)
      (freshCtx freshTask : String) (deltas : List String) (ending : StreamEnd)
      (clarified : Bool) (now : Nat)
  | cancel (taskId : Option String) (now : Nat)
  | get (taskId : Option String)

/-- The server-state transition of one operation. -/
def stepOp (s : ServerState) : A2AOp → ServerState
  | .send m c fc ft g n => (handleMessageSend s m c fc ft g n).1
  | .stream m c fc ft ds e cl n => (handleMessageStream s m c fc ft ds e cl n).state
  | .cancel tid n => (handleTasksCancel s tid n).1
  | .get tid => (handleTasksGet s tid).1

theorem stepOp_preserves (s : ServerState) (op : A2AOp)
    (h : StoreInv s.store) : StoreInv (stepOp s op).store := by
  cases op with
  | get tidOpt =>
    rcases tidOpt with _ | tid
    · exact h
    · have hid : (handleTasksGet s (some tid)).1 = s := by
        rcases hg : s.store.getTask tid with _ | task
        · simp only [handleTasksGet, hg]
        · simp only [handleTasksGet, hg]
      show StoreInv (handleTasksGet s (some tid)).1.store
      rw [hid]
      exact h
  | cancel tidOpt n =>
    rcases tidOpt with _ | tid
    · exact h
    · show StoreInv (handleTasksCancel s (some tid) n).1.store
      rcases hg : s.store.getTask tid with _ | task
      · have hid : (handleTasksCancel s (some tid) n).1 = s := by
          simp only [handleTasksCancel, hg]
        rw [hid]
        exact h
      · by_cases hterm : task.state = .completed ∨ task.state = .failed
        · have hid : (handleTasksCancel s (some tid) n).1 = s := by
            simp only [handleTasksCancel, hg, if_pos hterm]
          rw [hid]
          exact h
        · have hst : (handleTasksCancel s (some tid) n).1.store =
              s.store.updateTaskStatus tid .canceled (some "Canceled by client") n := by
            simp only [handleTasksCancel, hg, if_neg hterm]
            split
            · rfl
            · rfl
          rw [hst]
          exact storeInv_updateTaskStatus_notIR _ _ _ _ _ (by decide) h
  | send mOpt cOpt fc ft gen n =>
    show StoreInv (handleMessageSend s mOpt cOpt fc ft gen n).1.store
    rcases mOpt with _ | msg
    · exact h
    · by_cases hmsg : extractText msg = ""
      · have hid : (handleMessageSend s (some msg) cOpt fc ft gen n).1 = s := by
          simp only [handleMessageSend, if_pos hmsg]
        rw [hid]
        exact h
      · rcases hres : resolveTask s.store (cOpt.getD fc) ft n with _ | ⟨st1, tid, resumed⟩
        · have hid : (handleMessageSend s (some msg) cOpt fc ft gen n).1 = s := by
            simp only [handleMessageSend, if_neg hmsg, hres]
          rw [hid]
          exact h
        · obtain ⟨hinv1, hA, hB⟩ := resolveTask_facts h hres
          rcases gen with ⟨fo, rid, cl⟩ | e
          · apply storeInv_of_run st1 tid (cOpt.getD fc) _ hinv1 hA hB
            rcases rid with _ | r
            · rw [handleMessageSend_success_store_none s msg cOpt fc ft fo cl n hmsg hres,
                skeleton_updateTaskStatus, skeleton_setTaskArtifacts,
                skeleton_updateTaskStatus, updK_updK]
            · rw [handleMessageSend_success_store_some s msg cOpt fc ft fo r cl n hmsg hres,
                skeleton_updateTaskStatus, skeleton_setTaskArtifacts, skeleton_setSession,
                skeleton_updateTaskStatus, updK_updK]
          · have hst : (handleMessageSend s (some msg) cOpt fc ft (.failure e) n).1.store =
                (st1.updateTaskStatus tid .working
                  (some (if resumed then "Continuing..." else "Thinking...")) n).updateTaskStatus
                  tid .failed (some e) n := by
              simp only [handleMessageSend, if_neg hmsg, hres]
            rw [hst]
            exact storeInv_updateTaskStatus_notIR _ _ _ _ _ (by decide)
              (storeInv_updateTaskStatus_notIR _ _ _ _ _ (by decide) hinv1)
  | stream mOpt cOpt fc ft deltas ending cl n =>
    show StoreInv (handleMessageStream s mOpt cOpt fc ft deltas ending cl n).state.store
    rcases mOpt with _ | msg
    · exact h
    · by_cases hmsg : extractText msg = ""
      · have hid : (handleMessageStream s (some msg) cOpt fc ft deltas ending cl n).state
            = s := by
          simp only [handleMessageStream, if_pos hmsg]
        rw [hid]
        exact h
      · rcases hres : resolveTask s.store (cOpt.getD fc) ft n with _ | ⟨st1, tid, resumed⟩
        · have hid : (handleMessageStream s (some msg) cOpt fc ft deltas ending cl n).state
              = s := by
            simp only [handleMessageStream, if_neg hmsg, hres]
          rw [hid]
          exact h
        · obtain ⟨hinv1, hA, hB⟩ := resolveTask_facts h hres
          have hbase : skeleton (deltas.foldl
              (fun acc d => acc.appendToTaskArtifact tid d n)
              ((if resumed then st1.setTaskArtifacts tid ([] : List TaskArtifact) n
                else st1).updateTaskStatus tid .working
                (some (if resumed then "Continuing..." else "Thinking...")) n)) =
              updK (skeleton st1) tid .working := by
            rw [skeleton_foldlAppend, skeleton_updateTaskStatus]
            rcases resumed with _ | _
            · rfl
            · rw [if_pos rfl, skeleton_setTaskArtifacts]
          rcases ending with ⟨fo, rid⟩ | _ | e
          · -- completedRun
            apply storeInv_of_run st1 tid (cOpt.getD fc) _ hinv1 hA hB
            by_cases hj : String.join deltas = ""
            · rcases fo with _ | out
              · rcases rid with _ | r
                · have hst : (handleMessageStream s (some msg) cOpt fc ft deltas
                      (.completedRun none none) cl n).state.store =
                      (deltas.foldl (fun acc d => acc.appendToTaskArtifact tid d n)
                        ((if resumed then st1.setTaskArtifacts tid ([] : List TaskArtifact) n
                          else st1).updateTaskStatus tid .working
                          (some (if resumed then "Continuing..." else "Thinking..."))
                          n)).updateTaskStatus tid
                        (resolveEndState (if cl then setFlag s.inputRequiredFlags tid
                          else s.inputRequiredFlags) tid).1 none n := by
                    simp only [handleMessageStream, if_neg hmsg, hres, if_pos hj]
                  rw [hst, skeleton_updateTaskStatus, hbase, updK_updK]
                · have hst : (handleMessageStream s (some msg) cOpt fc ft deltas
                      (.completedRun none (some r)) cl n).state.store =
                      ((deltas.foldl (fun acc d => acc.appendToTaskArtifact tid d n)
                        ((if resumed then st1.setTaskArtifacts tid ([] : List TaskArtifact) n
                          else st1).updateTaskStatus tid .working
                          (some (if resumed then "Continuing..." else "Thinking..."))
                          n)).setSession (cOpt.getD fc) r n).updateTaskStatus tid
                        (resolveEndState (if cl then setFlag s.inputRequiredFlags tid
                          else s.inputRequiredFlags) tid).1 none n := by
                    simp only [handleMessageStream, if_neg hmsg, hres, if_pos hj]
                  rw [hst, skeleton_updateTaskStatus, skeleton_setSession, hbase, updK_updK]
              · by_cases hout : out = ""
                · rcases rid with _ | r
                  · have hst : (handleMessageStream s (some msg) cOpt fc ft deltas
                        (.completedRun (some out) none) cl n).state.store =
                        (deltas.foldl (fun acc d => acc.appendToTaskArtifact tid d n)
                          ((if resumed then st1.setTaskArtifacts tid
                              ([] : List TaskArtifact) n
                            else st1).updateTaskStatus tid .working
                            (some (if resumed then "Continuing..." else "Thinking..."))
                            n)).updateTaskStatus tid
                          (resolveEndState (if cl then setFlag s.inputRequiredFlags tid
                            else s.inputRequiredFlags) tid).1 none n := by
                      simp only [handleMessageStream, if_neg hmsg, hres, if_pos hj,
                        if_pos hout]
                    rw [hst, skeleton_updateTaskStatus, hbase, updK_updK]
                  · have hst : (handleMessageStream s (some msg) cOpt fc ft deltas
                        (.completedRun (some out) (some r)) cl n).state.store =
                        ((deltas.foldl (fun acc d => acc.appendToTaskArtifact tid d n)
                          ((if resumed then st1.setTaskArtifacts tid
                              ([] : List TaskArtifact) n
                            else st1).updateTaskStatus tid .working
                            (some (if resumed then "Continuing..." else "Thinking..."))
                            n)).setSession (cOpt.getD fc) r n).updateTaskStatus tid
                          (resolveEndState (if cl then setFlag s.inputRequiredFlags tid
                            else s.inputRequiredFlags) tid).1 none n := by
                      simp only [handleMessageStream, if_neg hmsg, hres, if_pos hj,
                        if_pos hout]
                    rw [hst, skeleton_updateTaskStatus, skeleton_setSession, hbase,
                      updK_updK]
                · rcases rid with _ | r
                  · have hst : (handleMessageStream s (some msg) cOpt fc ft deltas
                        (.completedRun (some out) none) cl n).state.store =
                        ((deltas.foldl (fun acc d => acc.appendToTaskArtifact tid d n)
                          ((if resumed then st1.setTaskArtifacts tid
                              ([] : List TaskArtifact) n
                            else st1).updateTaskStatus tid .working
                            (some (if resumed then "Continuing..." else "Thinking..."))
                            n)).setTaskArtifacts tid
                          [⟨"response", [⟨"text", some out⟩], none⟩] n).updateTaskStatus tid
                          (resolveEndState (if cl then setFlag s.inputRequiredFlags tid
                            else s.inputRequiredFlags) tid).1 none n := by
                      simp only [handleMessageStream, if_neg hmsg, hres, if_pos hj,
                        if_neg hout]
                    rw [hst, skeleton_updateTaskStatus, skeleton_setTaskArtifacts, hbase,
                      updK_updK]
                  · have hst : (handleMessageStream s (some msg) cOpt fc ft deltas
                        (.completedRun (some out) (some r)) cl n).state.store =
                        (((deltas.foldl (fun acc d => acc.appendToTaskArtifact tid d n)
                          ((if resumed then st1.setTaskArtifacts tid
                              ([] : List TaskArtifact) n
                            else st1).updateTaskStatus tid .working
                            (some (if resumed then "Continuing..." else "Thinking..."))
                            n)).setTaskArtifacts tid
                          [⟨"response", [⟨"text", some out⟩], none⟩] n).setSession
                          (cOpt.getD fc) r n).updateTaskStatus tid
                          (resolveEndState (if cl then setFlag s.inputRequiredFlags tid
                            else s.inputRequiredFlags) tid).1 none n := by
                      simp only [handleMessageStream, if_neg hmsg, hres, if_pos hj,
                        if_neg hout]
                    rw [hst, skeleton_updateTaskStatus, skeleton_setSession,
                      skeleton_setTaskArtifacts, hbase, updK_updK]
            · rcases rid with _ | r
              · have hst : (handleMessageStream s (some msg) cOpt fc ft deltas
                    (.completedRun fo none) cl n).state.store =
                    (deltas.foldl (fun acc d => acc.appendToTaskArtifact tid d n)
                      ((if resumed then st1.setTaskArtifacts tid ([] : List TaskArtifact) n
                        else st1).updateTaskStatus tid .working
                        (some (if resumed then "Continuing..." else "Thinking..."))
                        n)).updateTaskStatus tid
                      (resolveEndState (if cl then setFlag s.inputRequiredFlags tid
                        else s.inputRequiredFlags) tid).1 none n := by
                  simp only [handleMessageStream, if_neg hmsg, hres, if_neg hj]
                rw [hst, skeleton_updateTaskStatus, hbase, updK_updK]
              · have hst : (handleMessageStream s (some msg) cOpt fc ft deltas
                    (.completedRun fo (some r)) cl n).state.store =
                    ((deltas.foldl (fun acc d => acc.appendToTaskArtifact tid d n)
                      ((if resumed then st1.setTaskArtifacts tid ([] : List TaskArtifact) n
                        else st1).updateTaskStatus tid .working
                        (some (if resumed then "Continuing..." else "Thinking..."))
                        n)).setSession (cOpt.getD fc) r n).updateTaskStatus tid
                      (resolveEndState (if cl then setFlag s.inputRequiredFlags tid
                        else s.inputRequiredFlags) tid).1 none n := by
                  simp only [handleMessageStream, if_neg hmsg, hres, if_neg hj]
                rw [hst, skeleton_updateTaskStatus, skeleton_setSession, hbase, updK_updK]
          · -- aborted
            apply storeInv_of_run st1 tid (cOpt.getD fc) .canceled hinv1 hA hB
            have hst : (handleMessageStream s (some msg) cOpt fc ft deltas .aborted cl
                n).state.store =
                (deltas.foldl (fun acc d => acc.appendToTaskArtifact tid d n)
                  ((if resumed then st1.setTaskArtifacts tid ([] : List TaskArtifact) n
                    else st1).updateTaskStatus tid .working
                    (some (if resumed then "Continuing..." else "Thinking..."))
                    n)).updateTaskStatus tid .canceled (some "Canceled by client") n := by
              simp only [handleMessageStream, if_neg hmsg, hres]
            rw [hst, skeleton_updateTaskStatus, hbase, updK_updK]
          · -- errored
            apply storeInv_of_run st1 tid (cOpt.getD fc) .failed hinv1 hA hB
            have hst : (handleMessageStream s (some msg) cOpt fc ft deltas (.errored e) cl
                n).state.store =
                (deltas.foldl (fun acc d => acc.appendToTaskArtifact tid d n)
                  ((if resumed then st1.setTaskArtifacts tid ([] : List TaskArtifact) n
                    else st1).updateTaskStatus tid .working
                    (some (if resumed then "Continuing..." else "Thinking..."))
                    n)).updateTaskStatus tid .failed (some e) n := by
              simp only [handleMessageStream, if_neg hmsg, hres]
            rw [hst, skeleton_updateTaskStatus, hbase, updK_updK]

/-! ## Claim C3 -/

/-- C3: over every sequence of message/send, message/stream, tasks/cancel
and tasks/get operations executed sequentially from an empty task store,
at every point each contextId has at most one task whose state is
`input-required`. -/
theorem c3_at_most_one_input_required (ops : List A2AOp) (ctx : String) :
    irCount (ops.foldl stepOp ServerState.empty).store ctx ≤ 1 := by
  have hmain : ∀ (ops : List A2AOp) (s : ServerState),
      StoreInv s.store → StoreInv (ops.foldl stepOp s).store := by
    intro ops
    induction ops with
    | nil => intro s hs; exact hs
    | cons op ops ih =>
      intro s hs
      exact ih _ (stepOp_preserves s op hs)
  have hempty : StoreInv ServerState.empty.store := by
    constructor
    · exact List.nodup_nil
    · intro c
      show irCount ⟨[], []⟩ c ≤ 1
      unfold irCount
      simp
  exact (hmain ops ServerState.empty hempty).2 ctx

/-! ## RAG model (src/rag.ts) -/

/-- JavaScript strings at character granularity (on the ASCII knowledge
files, UTF-16 units coincide with characters). -/
abbrev JStr := List Char

/-- Mirrors `Chunk` in src/rag.ts. -/
structure Chunk where
  id : JStr
  source : JStr
  heading : JStr
  content : JStr
deriving DecidableEq, Repr

/-- Mirrors `EmbeddedChunk`: a chunk plus its embedding vector (JS floats
idealized as rationals). -/
structure EmbeddedChunk extends Chunk where
  embedding : List ℚ
deriving DecidableEq, Repr

/-- Mirrors `CacheFile`, the persisted snapshot. -/
structure CacheFile where
  sourceHash : JStr
  model : JStr
  chunks : List EmbeddedChunk
deriving DecidableEq, Repr

/-- The `EMBEDDING_MODEL` constant. -/
def EMBEDDING_MODEL : JStr := "text-embedding-3-small".data

/-- How `VectorStore.init` obtained its index. -/
inductive InitResult
  | fromCache (chunks : List EmbeddedChunk)
  | rebuilt (chunks : List EmbeddedChunk)
deriving DecidableEq, Repr

/-- Mirrors `VectorStore.init`.  The parameters stand for the outside
world: `cacheOnDisk` is `none` when no cache file exists, `some none`
when it exists but `JSON.parse` throws (the `catch` falls through to the
rebuild), and `some (some c)` when it parses to `c`; `sourceHash` is
`computeSourceHash()` over the current source documents; `embedResult`
is the outcome of re-chunking and batch-embedding all sources (an
`Except.error` models a failed embedding call, which is fatal to
startup). -/
def VectorStore.init (cacheOnDisk : Option (Option CacheFile)) (sourceHash : JStr)
    (embedResult : Except JStr (List EmbeddedChunk)) : Except JStr InitResult :=
  let rebuild : Except JStr InitResult :=
    match embedResult with
    | .ok cs => .ok (.rebuilt cs)
    | .error e => .error e
  match cacheOnDisk with
  | some (some cache) =>
    if cache.sourceHash = sourceHash ∧ cache.model = EMBEDDING_MODEL then
      .ok (.fromCache cache.chunks)
    else rebuild
  | some none => rebuild
  | none => rebuild

/-! ## Claim C6 -/

/-- C6: init loads the persisted snapshot and skips re-embedding iff the
snapshot file exists, parses successfully, and both its sourceHash and
model match the current inputs; what it loads is exactly the snapshot's
chunk set; a snapshot that fails to parse is a cache miss that triggers a
full rebuild rather than an error; and any hash/model mismatch forces the
full rebuild. -/
theorem c6_init_cache_validity (cacheOnDisk : Option (Option CacheFile))
    (sourceHash : JStr) (cs : List EmbeddedChunk) :
    ((∃ loaded, VectorStore.init cacheOnDisk sourceHash (.ok cs) =
        .ok (.fromCache loaded)) ↔
      (∃ c, cacheOnDisk = some (some c) ∧ c.sourceHash = sourceHash ∧
        c.model = EMBEDDING_MODEL)) ∧
    (∀ c loaded, cacheOnDisk = some (some c) →
      VectorStore.init cacheOnDisk sourceHash (.ok cs) = .ok (.fromCache loaded) →
      loaded = c.chunks) ∧
    (VectorStore.init (some none) sourceHash (.ok cs) = .ok (.rebuilt cs)) ∧
    (∀ c, cacheOnDisk = some (some c) →
      ¬ (c.sourceHash = sourceHash ∧ c.model = EMBEDDING_MODEL) →
      VectorStore.init cacheOnDisk sourceHash (.ok cs) = .ok (.rebuilt cs)) := by
  refine ⟨⟨?_, ?_⟩, ?_, rfl, ?_⟩
  · rintro ⟨loaded, hload⟩
    rcases cacheOnDisk with _ | ⟨_ | c⟩
    · simp [VectorStore.init] at hload
    · simp [VectorStore.init] at hload
    · by_cases hc : c.sourceHash = sourceHash ∧ c.model = EMBEDDING_MODEL
      · exact ⟨c, rfl, hc.1, hc.2⟩
      · simp only [VectorStore.init, if_neg hc] at hload
        simp at hload
  · rintro ⟨c, hdisk, h1, h2⟩
    subst hdisk
    refine ⟨c.chunks, ?_⟩
    simp only [VectorStore.init]
    rw [if_pos (And.intro h1 h2)]
  · intro c loaded hdisk hload
    subst hdisk
    by_cases hc : c.sourceHash = sourceHash ∧ c.model = EMBEDDING_MODEL
    · simp only [VectorStore.init, if_pos hc] at hload
      simp at hload
      exact hload.symm
    · simp only [VectorStore.init, if_neg hc] at hload
      simp at hload
  · intro c hdisk hc
    subst hdisk
    simp only [VectorStore.init, if_neg hc]

/-- Witness for C6: a matching snapshot hits the cache; a corrupted and a
stale snapshot rebuild. -/
theorem c6_init_cache_validity_witness :
    (∃ loaded, VectorStore.init (some (some ⟨"h".data, EMBEDDING_MODEL, []⟩)) "h".data
        (.ok []) = .ok (.fromCache loaded)) ∧
    (VectorStore.init (some none) "h".data (.ok []) = .ok (.rebuilt [])) ∧
    (VectorStore.init (some (some ⟨"stale".data, EMBEDDING_MODEL, []⟩)) "h".data
        (.ok []) = .ok (.rebuilt [])) := by
  have h := c6_init_cache_validity
    (some (some (⟨"h".data, EMBEDDING_MODEL, []⟩ : CacheFile))) "h".data []
  have h2 := c6_init_cache_validity
    (some (some (⟨"stale".data, EMBEDDING_MODEL, []⟩ : CacheFile))) "h".data []
  exact ⟨h.1.mpr ⟨⟨"h".data, EMBEDDING_MODEL, []⟩, rfl, rfl, rfl⟩, h.2.2.1,
    h2.2.2.2 ⟨"stale".data, EMBEDDING_MODEL, []⟩ rfl (by decide)⟩

/-! ## Claim C8: clarification-signal routing under concurrency -/

/-- The clarification-signal globals of `createServer`: the shared
mutable `activeRunTaskId` variable and the per-task
`inputRequiredFlags` map. -/
structure ClarifyState where
  activeRunTaskId : Option String
  inputRequiredFlags : List String
deriving DecidableEq, Repr

/-- Scheduler-visible events of the clarification wiring under the
cooperative (single-threaded, interleaved at awaits) execution model: a
handler writes `activeRunTaskId := taskId` just before awaiting `run`,
the `request_clarification` tool callback fires during some in-flight
run, and a handler clears the variable when its run resolves.  The
`origin` of a callback records which task's run raised it; the
implementation ignores it and reads the shared variable instead. -/
inductive ClarifyEvent
  | beginRun (taskId : String)
  | callback (origin : String)
  | endRun
deriving DecidableEq, Repr

/-- One step of the clarification wiring, as the `createServer` closure
behaves: the callback flags whatever `activeRunTaskId` currently holds,
regardless of which run fired it. -/
def clarifyStep (s : ClarifyState) : ClarifyEvent → ClarifyState
  | .beginRun tid => { s with activeRunTaskId := some tid }
  | .callback _ =>
    match s.activeRunTaskId with
    | some tid => { s with inputRequiredFlags := setFlag s.inputRequiredFlags tid }
    | none => s
  | .endRun => { s with activeRunTaskId := none }

/-- Running an interleaving of clarification events from the server's
initial globals. -/
def clarifyRun (events : List ClarifyEvent) : ClarifyState :=
  events.foldl clarifyStep ⟨none, []⟩

/-- C8 (refuted on the bespoke server): with two runs in flight — task
A's handler sets `activeRunTaskId := A` and awaits; task B's handler then
sets `activeRunTaskId := B` and awaits; A's generation fires the
clarification callback — the callback flags task B, and task A is never
flagged: the suspend signal is routed through the shared global, not
keyed by the identity of the task that triggered it. -/
theorem c8_clarification_cross_contamination :
    ("B" ∈ (clarifyRun
        [.beginRun "A", .beginRun "B", .callback "A"]).inputRequiredFlags) ∧
    ("A" ∉ (clarifyRun
        [.beginRun "A", .beginRun "B", .callback "A"]).inputRequiredFlags) := by
  decide

/-! ## Vector store search (src/rag.ts) -/

/-- Default `TOP_K`. -/
def TOP_K : Nat := 5

/-- Mirrors `cosineSimilarity`: dot(a, b) / (sqrt(normA) * sqrt(normB)).
The JS loop runs over the indices of `a`; on the equal-length vectors a
build produces, the zip and the two square sums below coincide with it.
`Math.sqrt` on idealized rationals is modelled by `Rat.sqrt`; none of
the properties proved below depend on the numeric score values. -/
def cosineSimilarity (a b : List ℚ) : ℚ :=
  let dot := ((a.zip b).map (fun p => p.1 * p.2)).sum
  let normA := (a.map (fun x => x * x)).sum
  let normB := (b.map (fun x => x * x)).sum
  dot / (Rat.sqrt normA * Rat.sqrt normB)

/-- Mirrors `VectorStore.search`, given the query's embedding (the
embedding call is the external collaborator): score every chunk, sort by
descending score — `scored.sort((a, b) => b.score - a.score)`, which the
JS specification requires to be a stable, comparator-consistent sort,
modelled by `mergeSort` with the matching total order — and slice the
first `topK`. -/
def VectorStore.search (chunks : List EmbeddedChunk) (queryEmbedding : List ℚ)
    (topK : Nat := TOP_K) : List (Chunk × ℚ) :=
  let scored := chunks.map
    (fun c => (c.toChunk, cosineSimilarity queryEmbedding c.embedding))
  (scored.mergeSort (fun a b => decide (b.2 ≤ a.2))).take topK

/-! ## Claim C4 -/

/-- C4: search returns exactly min(k, n) results, sorted by descending
score; any two scored entries in encounter order whose scores permit that
order (in particular equal-score ties) keep it in the full ranking the
slice is taken from; and k = 0 or an empty store give the empty sequence
(search is a total function — it cannot raise). -/
theorem c4_search_spec (chunks : List EmbeddedChunk) (qe : List ℚ) (k : Nat) :
    (VectorStore.search chunks qe k).length = min k chunks.length ∧
    (VectorStore.search chunks qe k).Pairwise (fun a b => b.2 ≤ a.2) ∧
    (∀ a b : Chunk × ℚ, b.2 ≤ a.2 →
      List.Sublist [a, b]
        (chunks.map (fun c => (c.toChunk, cosineSimilarity qe c.embedding))) →
      List.Sublist [a, b] (VectorStore.search chunks qe chunks.length)) ∧
    VectorStore.search chunks qe 0 = [] ∧
    VectorStore.search ([] : List EmbeddedChunk) qe k = [] := by
  have htrans : ∀ a b c : Chunk × ℚ,
      (fun a b : Chunk × ℚ => decide (b.2 ≤ a.2)) a b →
      (fun a b : Chunk × ℚ => decide (b.2 ≤ a.2)) b c →
      (fun a b : Chunk × ℚ => decide (b.2 ≤ a.2)) a c := by
    intro a b c hab hbc
    exact decide_eq_true (le_trans (of_decide_eq_true hbc) (of_decide_eq_true hab))
  have htotal : ∀ a b : Chunk × ℚ,
      ((fun a b : Chunk × ℚ => decide (b.2 ≤ a.2)) a b ||
        (fun a b : Chunk × ℚ => decide (b.2 ≤ a.2)) b a) := by
    intro a b
    rcases le_total b.2 a.2 with h | h
    · simp [h]
    · simp [h]
  have hlenSorted : ((chunks.map
      (fun c => (c.toChunk, cosineSimilarity qe c.embedding))).mergeSort
        (fun a b => decide (b.2 ≤ a.2))).length = chunks.length := by
    rw [List.length_mergeSort, List.length_map]
  refine ⟨?_, ?_, ?_, ?_, by simp [VectorStore.search]⟩
  · show (List.take k ((chunks.map
        (fun c => (c.toChunk, cosineSimilarity qe c.embedding))).mergeSort
        (fun a b => decide (b.2 ≤ a.2)))).length = min k chunks.length
    rw [List.length_take, hlenSorted]
  · show (List.take k ((chunks.map
        (fun c => (c.toChunk, cosineSimilarity qe c.embedding))).mergeSort
        (fun a b => decide (b.2 ≤ a.2)))).Pairwise (fun a b : Chunk × ℚ => b.2 ≤ a.2)
    have hsorted := List.sorted_mergeSort htrans htotal
      (chunks.map (fun c => (c.toChunk, cosineSimilarity qe c.embedding)))
    have hsub := List.Pairwise.sublist (List.take_sublist k
      ((chunks.map (fun c => (c.toChunk, cosineSimilarity qe c.embedding))).mergeSort
        (fun a b => decide (b.2 ≤ a.2)))) hsorted
    exact hsub.imp (fun h => of_decide_eq_true h)
  · intro a b hle hsub
    show List.Sublist [a, b] (List.take chunks.length ((chunks.map
        (fun c => (c.toChunk, cosineSimilarity qe c.embedding))).mergeSort
        (fun a b => decide (b.2 ≤ a.2))))
    rw [List.take_of_length_le (le_of_eq hlenSorted)]
    exact List.pair_sublist_mergeSort htrans htotal (decide_eq_true hle) hsub
  · show List.take 0 ((chunks.map
        (fun c => (c.toChunk, cosineSimilarity qe c.embedding))).mergeSort
        (fun a b => decide (b.2 ≤ a.2))) = []
    exact List.take_zero _

/-- A pair of chunks with identical embeddings (hence tied scores). -/
def cw1 : EmbeddedChunk := ⟨⟨"a".data, "s".data, "h".data, "c1".data⟩, [1]⟩

/-- Second chunk of the tie witness. -/
def cw2 : EmbeddedChunk := ⟨⟨"b".data, "s".data, "h".data, "c2".data⟩, [1]⟩

/-- Witness for C4: the equal-score pair keeps its encounter order in the
ranking. -/
theorem c4_search_spec_witness :
    List.Sublist
      [(cw1.toChunk, cosineSimilarity [1] cw1.embedding),
       (cw2.toChunk, cosineSimilarity [1] cw2.embedding)]
      (VectorStore.search [cw1, cw2] [1] ([cw1, cw2].length)) :=
  (c4_search_spec [cw1, cw2] [1] 2).2.2.1 _ _ (le_refl _) (List.Sublist.refl _)

/-! ## Markdown chunker (src/rag.ts), over character lists -/

/-- Whitespace characters (what JS `trim` strips, on ASCII input). -/
def isWsChar (c : Char) : Bool := c.isWhitespace

/-- JS `s.trim()`. -/
def jsTrim (s : JStr) : JStr :=
  ((s.dropWhile isWsChar).reverse.dropWhile isWsChar).reverse

/-- JS `content.split("\n")`: split at every newline; `"".split` gives
`[""]`, and a trailing newline yields a trailing empty line. -/
def splitLines : JStr → List JStr
  | [] => [[]]
  | c :: cs =>
    match splitLines cs with
    | [] => [[c]]
    | l :: ls => if c = '\n' then [] :: l :: ls else (c :: l) :: ls

/-- JS `lines.join("\n")`. -/
def joinNL : List JStr → JStr
  | [] => []
  | [l] => l
  | l :: l2 :: ls => l ++ '\n' :: joinNL (l2 :: ls)

/-- JS `s.startsWith(p)`. -/
def jsStartsWith (s p : JStr) : Bool := decide (s.take p.length = p)

/-- `line.startsWith("## ") && !line.startsWith("### ")`. -/
def isTopHeading (line : JStr) : Bool :=
  jsStartsWith line "## ".data && !jsStartsWith line "### ".data

/-- `line.startsWith("### ")`. -/
def isSubHeading (line : JStr) : Bool := jsStartsWith line "### ".data

/-- `line.replace(/^##\s+/, "").trim()` — on a line starting with "## "
the regex removes the two hashes and the whitespace run after them, so
with the final trim this is the trim of everything after the hashes. -/
def stripHeading2 (line : JStr) : JStr := jsTrim (line.drop 2)

/-- `line.replace(/^###\s+/, "").trim()`, as above with three hashes. -/
def stripHeading3 (line : JStr) : JStr := jsTrim (line.drop 3)

/-- Decimal rendering of the positional index used in chunk ids. -/
def natChars (n : Nat) : JStr := (toString n).data

/-- Flush step of `chunkMarkdown`'s loop: emit the accumulated lines as a
chunk when they are non-empty and their trimmed join clears the 50
character noise threshold; the id is source : running index. -/
def flushChunk (source : JStr) (chunks : List Chunk) (heading : JStr)
    (currentLines : List JStr) : List Chunk :=
  if currentLines.length > 0 then
    let text := jsTrim (joinNL currentLines)
    if text.length > 50 then
      chunks ++ [{ id := source ++ ':' :: natChars chunks.length, source := source,
                   heading := heading, content := text }]
    else chunks
  else chunks

/-- The line loop of `chunkMarkdown`: flush at every top-level heading
(the heading line itself starts the next chunk), then flush the rest. -/
def chunkLoop (source : JStr) : List JStr → JStr → List JStr → List Chunk → List Chunk
  | [], heading, cur, chunks => flushChunk source chunks heading cur
  | line :: rest, heading, cur, chunks =>
    if isTopHeading line then
      chunkLoop source rest (stripHeading2 line) [line] (flushChunk source chunks heading cur)
    else
      chunkLoop source rest heading (cur ++ [line]) chunks

/-- Flush step of `splitBySubheadings`: same shape, with the id carrying
the running sub-index (used, then incremented, exactly on a push). -/
def subFlush (chunk : Chunk) (acc : List Chunk × Nat) (heading : JStr)
    (currentLines : List JStr) : List Chunk × Nat :=
  if currentLines.length > 0 then
    let text := jsTrim (joinNL currentLines)
    if text.length > 50 then
      (acc.1 ++ [{ id := chunk.source ++ ':' :: chunk.id ++ ':' :: natChars acc.2,
                   source := chunk.source, heading := heading, content := text }],
        acc.2 + 1)
    else acc
  else acc

/-- The line loop of `splitBySubheadings`: flush at every "### " line;
sub-headings are titled `parent > child`. -/
def subLoop (chunk : Chunk) : List JStr → JStr → List JStr → List Chunk × Nat → List Chunk
  | [], heading, cur, acc => (subFlush chunk acc heading cur).1
  | line :: rest, heading, cur, acc =>
    if isSubHeading line then
      subLoop chunk rest (chunk.heading ++ " > ".data ++ stripHeading3 line) [line]
        (subFlush chunk acc heading cur)
    else
      subLoop chunk rest heading (cur ++ [line]) acc

/-- Mirrors `splitBySubheadings`: split an oversized chunk's content on
"### " lines; when nothing usable comes out, keep the chunk whole. -/
def splitBySubheadings (chunk : Chunk) : List Chunk :=
  let subChunks := subLoop chunk (splitLines chunk.content) chunk.heading [] ([], 0)
  if subChunks.length > 0 then subChunks else [chunk]

/-- Mirrors `chunkMarkdown`: split on "## " lines (keeping "###" grouped
under their parent), drop noise chunks, then split any chunk over 3000
characters on its sub-headings. -/
def chunkMarkdown (source : JStr) (content : JStr) : List Chunk :=
  let chunks := chunkLoop source (splitLines content) "Introduction".data [] []
  (chunks.map (fun c =>
    if c.content.length > 3000 then splitBySubheadings c else [c])).flatten

/-- The grouping of lines into segments between heading lines: exactly
the `currentLines` runs that the two chunker loops flush. -/
def segLoop (isHead : JStr → Bool) : List JStr → List JStr → List (List JStr)
  | [], cur => if cur.length > 0 then [cur] else []
  | line :: rest, cur =>
    if isHead line then
      (if cur.length > 0 then [cur] else []) ++ segLoop isHead rest [line]
    else
      segLoop isHead rest (cur ++ [line])

/-- All whitespace removed — the normalization under which the chunk
contents reconstruct the document. -/
def stripWs (s : JStr) : JStr := s.filter (fun c => !isWsChar c)

/-! ## Claim C5: supporting lemmas -/

theorem stripWs_append (a b : JStr) : stripWs (a ++ b) = stripWs a ++ stripWs b := by
  unfold stripWs
  exact List.filter_append _ _

theorem stripWs_dropWhile (l : JStr) : stripWs (l.dropWhile isWsChar) = stripWs l := by
  unfold stripWs
  induction l with
  | nil => rfl
  | cons c cs ih =>
    by_cases h : isWsChar c
    · rw [List.dropWhile_cons, if_pos h, ih, List.filter_cons_of_neg (by simp [h])]
    · rw [List.dropWhile_cons, if_neg h]

theorem stripWs_reverse (l : JStr) : stripWs l.reverse = (stripWs l).reverse := by
  unfold stripWs
  induction l with
  | nil => rfl
  | cons c cs ih =>
    rw [List.reverse_cons, List.filter_append, ih]
    by_cases h : isWsChar c
    · rw [List.filter_cons_of_neg (by simp [h])]
      simp [h]
    · rw [List.filter_cons_of_pos (by simp [h])]
      simp [h]

theorem stripWs_jsTrim (s : JStr) : stripWs (jsTrim s) = stripWs s := by
  unfold jsTrim
  rw [stripWs_reverse, stripWs_dropWhile, stripWs_reverse, List.reverse_reverse,
    stripWs_dropWhile]

theorem stripWs_joinNL (ls : List JStr) :
    stripWs (joinNL ls) = (ls.map stripWs).flatten := by
  induction ls with
  | nil => rfl
  | cons l ls ih =>
    cases ls with
    | nil => simp [joinNL]
    | cons l2 ls2 =>
      rw [show joinNL (l :: l2 :: ls2) = l ++ '\n' :: joinNL (l2 :: ls2) from rfl,
        stripWs_append,
        show stripWs ('\n' :: joinNL (l2 :: ls2)) = stripWs (joinNL (l2 :: ls2)) from by
          unfold stripWs
          rw [List.filter_cons_of_neg (by decide)],
        ih]
      simp

theorem splitLines_ne_nil (s : JStr) : splitLines s ≠ [] := by
  cases s with
  | nil => exact fun h => List.noConfusion h
  | cons c cs =>
    unfold splitLines
    rcases h : splitLines cs with _ | ⟨l, ls⟩
    · exact fun hh => List.noConfusion hh
    · by_cases hc : c = '\n' <;> simp [hc]

theorem joinNL_cons_cons (c : Char) (l : JStr) (ls : List JStr) :
    joinNL ((c :: l) :: ls) = c :: joinNL (l :: ls) := by
  cases ls with
  | nil => rfl
  | cons l2 ls2 => rfl

theorem joinNL_splitLines (s : JStr) : joinNL (splitLines s) = s := by
  induction s with
  | nil => rfl
  | cons c cs ih =>
    unfold splitLines
    rcases h : splitLines cs with _ | ⟨l, ls⟩
    · exact absurd h (splitLines_ne_nil cs)
    · rw [h] at ih
      rw [show (match l :: ls with
          | [] => [[c]]
          | l :: ls => if c = '\n' then [] :: l :: ls else (c :: l) :: ls)
          = (if c = '\n' then [] :: l :: ls else (c :: l) :: ls) from rfl]
      by_cases hc : c = '\n'
      · rw [if_pos hc]
        subst hc
        show ([] : JStr) ++ '\n' :: joinNL (l :: ls) = '\n' :: cs
        rw [List.nil_append, ih]
      · rw [if_neg hc, joinNL_cons_cons, ih]

theorem segLoop_flatten (isHead : JStr → Bool) :
    ∀ (lines : List JStr) (cur : List JStr),
      (segLoop isHead lines cur).flatten = cur ++ lines := by
  intro lines
  induction lines with
  | nil =>
    intro cur
    by_cases h : cur.length > 0
    · simp [segLoop, h]
    · have hc : cur = [] := List.length_eq_zero.mp (by omega)
      simp [segLoop, h, hc]
  | cons line rest ih =>
    intro cur
    unfold segLoop
    by_cases h : isHead line
    · rw [if_pos h, List.flatten_append, ih [line]]
      by_cases hc : cur.length > 0
      · rw [if_pos hc]
        simp
      · have hcc : cur = [] := List.length_eq_zero.mp (by omega)
        rw [if_neg hc, hcc]
        simp
    · rw [if_neg h, ih (cur ++ [line])]
      simp

theorem segLoop_ne_nil (isHead : JStr → Bool) :
    ∀ (lines : List JStr) (cur : List JStr), (lines ≠ [] ∨ cur ≠ []) →
      segLoop isHead lines cur ≠ [] := by
  intro lines
  induction lines with
  | nil =>
    intro cur hor
    rcases hor with h | h
    · exact absurd rfl h
    · have : cur.length > 0 := List.length_pos.mpr h
      simp [segLoop, this]
  | cons line rest ih =>
    intro cur _
    unfold segLoop
    by_cases h : isHead line
    · rw [if_pos h]
      intro hcontra
      rcases List.append_eq_nil.mp hcontra with ⟨-, h2⟩
      exact ih [line] (Or.inr (by simp)) h2
    · rw [if_neg h]
      exact ih (cur ++ [line]) (Or.inr (by simp))

theorem flushChunk_contents (source : JStr) (chunks : List Chunk) (heading : JStr)
    (cur : List JStr) :
    (flushChunk source chunks heading cur).map (fun c => c.content) =
      chunks.map (fun c => c.content) ++
      (((if cur.length > 0 then [cur] else []).map
        (fun seg => jsTrim (joinNL seg))).filter (fun t => decide (t.length > 50))) := by
  simp only [flushChunk]
  by_cases h1 : cur.length > 0
  · rw [if_pos h1, if_pos h1]
    by_cases h2 : (jsTrim (joinNL cur)).length > 50
    · rw [if_pos h2]
      simp [h2]
    · rw [if_neg h2]
      simp [h2]
  · rw [if_neg h1, if_neg h1]
    simp

theorem chunkLoop_contents (source : JStr) :
    ∀ (lines : List JStr) (heading : JStr) (cur : List JStr) (chunks : List Chunk),
      (chunkLoop source lines heading cur chunks).map (fun c => c.content) =
        chunks.map (fun c => c.content) ++
        (((segLoop isTopHeading lines cur).map (fun seg => jsTrim (joinNL seg))).filter
          (fun t => decide (t.length > 50))) := by
  intro lines
  induction lines with
  | nil =>
    intro heading cur chunks
    show (flushChunk source chunks heading cur).map _ = _
    rw [flushChunk_contents]
    rfl
  | cons line rest ih =>
    intro heading cur chunks
    unfold chunkLoop segLoop
    by_cases h : isTopHeading line
    · rw [if_pos h, if_pos h, ih, flushChunk_contents, List.map_append,
        List.filter_append, List.append_assoc]
    · rw [if_neg h, if_neg h, ih]

theorem subFlush_contents (chunk : Chunk) (acc : List Chunk × Nat) (heading : JStr)
    (cur : List JStr) :
    (subFlush chunk acc heading cur).1.map (fun c => c.content) =
      acc.1.map (fun c => c.content) ++
      (((if cur.length > 0 then [cur] else []).map
        (fun seg => jsTrim (joinNL seg))).filter (fun t => decide (t.length > 50))) := by
  simp only [subFlush]
  by_cases h1 : cur.length > 0
  · rw [if_pos h1, if_pos h1]
    by_cases h2 : (jsTrim (joinNL cur)).length > 50
    · rw [if_pos h2]
      simp [h2]
    · rw [if_neg h2]
      simp [h2]
  · rw [if_neg h1, if_neg h1]
    simp

theorem subLoop_contents (chunk : Chunk) :
    ∀ (lines : List JStr) (heading : JStr) (cur : List JStr) (acc : List Chunk × Nat),
      (subLoop chunk lines heading cur acc).map (fun c => c.content) =
        acc.1.map (fun c => c.content) ++
        (((segLoop isSubHeading lines cur).map (fun seg => jsTrim (joinNL seg))).filter
          (fun t => decide (t.length > 50))) := by
  intro lines
  induction lines with
  | nil =>
    intro heading cur acc
    show (subFlush chunk acc heading cur).1.map _ = _
    rw [subFlush_contents]
    rfl
  | cons line rest ih =>
    intro heading cur acc
    unfold subLoop segLoop
    by_cases h : isSubHeading line
    · rw [if_pos h, if_pos h, ih, subFlush_contents, List.map_append,
        List.filter_append, List.append_assoc]
    · rw [if_neg h, if_neg h, ih]

theorem strip_concat_of_allpass (isHead : JStr → Bool) (lines : List JStr)
    (hAll : ∀ seg ∈ segLoop isHead lines [], (jsTrim (joinNL seg)).length > 50) :
    ((((segLoop isHead lines []).map (fun seg => jsTrim (joinNL seg))).filter
      (fun t => decide (t.length > 50))).map stripWs).flatten =
      (lines.map stripWs).flatten := by
  have hfil : ((segLoop isHead lines []).map (fun seg => jsTrim (joinNL seg))).filter
      (fun t => decide (t.length > 50)) =
      (segLoop isHead lines []).map (fun seg => jsTrim (joinNL seg)) := by
    apply List.filter_eq_self.mpr
    intro t ht
    obtain ⟨seg, hseg, rfl⟩ := List.mem_map.mp ht
    exact decide_eq_true (hAll seg hseg)
  rw [hfil, List.map_map]
  have hstep : ∀ segs : List (List JStr),
      (segs.map (stripWs ∘ fun seg => jsTrim (joinNL seg))).flatten =
        ((segs.flatten).map stripWs).flatten := by
    intro segs
    induction segs with
    | nil => rfl
    | cons seg segs ih =>
      rw [List.map_cons, List.flatten_cons, ih, List.flatten_cons, List.map_append,
        List.flatten_append]
      congr 1
      show stripWs (jsTrim (joinNL seg)) = (seg.map stripWs).flatten
      rw [stripWs_jsTrim, stripWs_joinNL]
  rw [hstep, segLoop_flatten, List.nil_append]

theorem splitBySubheadings_keepWhole (c : Chunk)
    (h : subLoop c (splitLines c.content) c.heading [] ([], 0) = []) :
    splitBySubheadings c = [c] := by
  simp only [splitBySubheadings, h]
  rfl

theorem refine_strip (c : Chunk)
    (hc : c.content.length > 3000 →
      (∀ seg ∈ segLoop isSubHeading (splitLines c.content) [],
        (jsTrim (joinNL seg)).length > 50) ∨
      (∀ seg ∈ segLoop isSubHeading (splitLines c.content) [],
        ¬ (jsTrim (joinNL seg)).length > 50)) :
    ((if c.content.length > 3000 then splitBySubheadings c else [c]).map
      (fun d => stripWs d.content)).flatten = stripWs c.content := by
  by_cases hbig : c.content.length > 3000
  · rw [if_pos hbig]
    have hcontents : (subLoop c (splitLines c.content) c.heading [] ([], 0)).map
        (fun d => d.content) =
        ((segLoop isSubHeading (splitLines c.content) []).map
          (fun seg => jsTrim (joinNL seg))).filter (fun t => decide (t.length > 50)) := by
      rw [subLoop_contents]
      rfl
    rcases hc hbig with hall | hnone
    · have hne : subLoop c (splitLines c.content) c.heading [] ([], 0) ≠ [] := by
        intro hnil
        have hlen := congrArg List.length hcontents
        rw [hnil] at hlen
        have hflen : (((segLoop isSubHeading (splitLines c.content) []).map
            (fun seg => jsTrim (joinNL seg))).filter
            (fun t => decide (t.length > 50))).length =
            ((segLoop isSubHeading (splitLines c.content) []).map
              (fun seg => jsTrim (joinNL seg))).length := by
          apply congrArg List.length
          apply List.filter_eq_self.mpr
          intro t ht
          obtain ⟨seg, hseg, rfl⟩ := List.mem_map.mp ht
          exact decide_eq_true (hall seg hseg)
        rw [hflen, List.length_map, List.length_map] at hlen
        simp only [List.length_nil] at hlen
        exact segLoop_ne_nil isSubHeading (splitLines c.content) []
          (Or.inl (splitLines_ne_nil _))
          (List.length_eq_zero.mp hlen.symm)
      have hsplit : splitBySubheadings c =
          subLoop c (splitLines c.content) c.heading [] ([], 0) := by
        simp only [splitBySubheadings]
        rw [if_pos (List.length_pos.mpr hne)]
      rw [hsplit]
      rw [show (fun d : Chunk => stripWs d.content) =
        (stripWs ∘ fun d : Chunk => d.content) from rfl]
      rw [← List.map_map, hcontents, strip_concat_of_allpass isSubHeading _ hall,
        ← stripWs_joinNL, joinNL_splitLines]
    · have hzero : (subLoop c (splitLines c.content) c.heading [] ([], 0)).map
          (fun d => d.content) = [] := by
        rw [hcontents]
        apply List.filter_eq_nil_iff.mpr
        intro t ht hdec
        obtain ⟨seg, hseg, rfl⟩ := List.mem_map.mp ht
        exact hnone seg hseg (of_decide_eq_true hdec)
      have hnil : subLoop c (splitLines c.content) c.heading [] ([], 0) = [] :=
        List.map_eq_nil_iff.mp hzero
      rw [splitBySubheadings_keepWhole c hnil]
      simp
  · rw [if_neg hbig]
    simp

/-! ## Claim C5 -/

/-- C5: under the noise-threshold conditions the claim itself carves out
— every top-level segment's trimmed join clears the 50-character noise
threshold, and every oversized chunk's sub-heading split either keeps all
its sub-segments or drops them all (so the chunk is kept whole) — the
contents of the chunks returned by `chunkMarkdown`, concatenated in
document order, reconstruct the input text up to whitespace
normalization (equality after removing all whitespace, which is exactly
what trimming at heading boundaries may change); and an oversized chunk
whose sub-heading split yields nothing usable is always kept whole. -/
theorem c5_chunkMarkdown_reconstruction (source text : JStr)
    (h1 : ∀ seg ∈ segLoop isTopHeading (splitLines text) [],
      (jsTrim (joinNL seg)).length > 50)
    (h2 : ∀ c ∈ chunkLoop source (splitLines text) "Introduction".data [] [],
      c.content.length > 3000 →
      (∀ seg ∈ segLoop isSubHeading (splitLines c.content) [],
        (jsTrim (joinNL seg)).length > 50) ∨
      (∀ seg ∈ segLoop isSubHeading (splitLines c.content) [],
        ¬ (jsTrim (joinNL seg)).length > 50)) :
    ((chunkMarkdown source text).map (fun c => stripWs c.content)).flatten =
      stripWs text ∧
    (∀ c : Chunk, subLoop c (splitLines c.content) c.heading [] ([], 0) = [] →
      splitBySubheadings c = [c]) := by
  refine ⟨?_, fun c h => splitBySubheadings_keepWhole c h⟩
  have hmain : ∀ tops : List Chunk,
      (∀ c ∈ tops, c.content.length > 3000 →
        (∀ seg ∈ segLoop isSubHeading (splitLines c.content) [],
          (jsTrim (joinNL seg)).length > 50) ∨
        (∀ seg ∈ segLoop isSubHeading (splitLines c.content) [],
          ¬ (jsTrim (joinNL seg)).length > 50)) →
      (((tops.map (fun c => if c.content.length > 3000 then splitBySubheadings c
          else [c])).flatten).map (fun c => stripWs c.content)).flatten =
        (tops.map (fun c => stripWs c.content)).flatten := by
    intro tops
    induction tops with
    | nil => intro _; rfl
    | cons t ts ih =>
      intro htops
      rw [List.map_cons, List.flatten_cons, List.map_append, List.flatten_append,
        refine_strip t (htops t (List.mem_cons_self t ts)),
        ih (fun c hc => htops c (List.mem_cons_of_mem _ hc)), List.map_cons,
        List.flatten_cons]
  show (((((chunkLoop source (splitLines text) "Introduction".data [] []).map
      (fun c => if c.content.length > 3000 then splitBySubheadings c
        else [c])).flatten).map (fun c => stripWs c.content)).flatten) = stripWs text
  rw [hmain _ h2]
  rw [show (fun c : Chunk => stripWs c.content) =
    (stripWs ∘ fun c : Chunk => c.content) from rfl]
  rw [← List.map_map, chunkLoop_contents, List.map_nil, List.nil_append,
    strip_concat_of_allpass isTopHeading _ h1, ← stripWs_joinNL, joinNL_splitLines]

/-- A two-section markdown document whose sections both clear the noise
threshold. -/
def c5text : JStr :=
  ("## Alpha\naaaaaaaaaaaaaaaaaaaaaaaaaaaaaaaaaaaaaaaaaaaaaaaaaaaaaaaa\n" ++
   "## Beta\nbbbbbbbbbbbbbbbbbbbbbbbbbbbbbbbbbbbbbbbbbbbbbbbbbbbbbbbb").data

/-- A chunk whose content is below the noise threshold, so its sub-split
yields nothing usable. -/
def c5small : Chunk := ⟨"f:9".data, "f".data, "H".data, "x".data⟩

/-- Witness for C5 on the concrete document and the concrete unusable
sub-split. -/
theorem c5_chunkMarkdown_reconstruction_witness :
    ((chunkMarkdown "f".data c5text).map (fun c => stripWs c.content)).flatten =
      stripWs c5text ∧
    splitBySubheadings c5small = [c5small] := by
  have h := c5_chunkMarkdown_reconstruction "f".data c5text (by decide) (by decide)
  exact ⟨h.1, h.2 c5small (by decide)⟩

end OracleAgent
